import Mathlib

/-!
# Lucas-Kanade interest point tracker: trajectory bookkeeping

A shallow embedding of the index and status bookkeeping of
`LucasKanadeTracker` (src/LucasKanade.cpp, src/LucasKanade.h,
src/InterestPoint.h).

Conventions of the embedding

* `std::vector<T>` is `List T`; an index `i` of the source is the list index.
* `cv::Point2f` coordinates are rationals: every finite `float` is a rational
  and the source only compares and copies coordinates (NaN and the infinities
  are left out).
* `uchar` success flags are natural numbers, tested as in C (`0` is false).
* `size_t` ids are natural numbers.  The store is taken to hold fewer than
  `2^31` trajectories, so `static_cast<int>(i)` of an id is the id itself.
* `static_cast<ulong>(frame) - 1` wraps at `2^64` (see `prevFrame`).
* A function whose source has an `assert` or indexes a vector returns an
  `Option`; `none` stands for a failed assertion or an access out of range.
* Qt signals that a function emits are collected in the state.
* Copying and comparing coordinates is exact.  Where the source computes with
  them, in `cv::norm(point - otherPos)` and in `toCv`, the IEEE 754 arithmetic
  is modelled on the rationals: every operation rounds its exact result to the
  nearest `float` (24 bits) or `double` (53 bits), ties to even (`roundToBits`,
  `cvNorm`).  Overflow to infinity is left out.
* A `QPoint` has integer coordinates.
* `m_firstTrackedFrame`, `m_lastTrackedFrame` and the drawing state are written
  but never read by the bookkeeping; they are left out.
-/

namespace LucasKanade

/-- Status of an interest point (`enum class InterestPointStatus`). -/
inductive InterestPointStatus where
  | Valid
  | Invalid
  | Non_Existing
  | Not_Tracked
  deriving DecidableEq, Repr

/-- A `cv::Point2f`. -/
structure Point2f where
  x : ℚ
  y : ℚ
  deriving DecidableEq

/-- The data members of `class InterestPoint`. -/
structure InterestPoint where
  m_status : InterestPointStatus
  m_position : Point2f
  m_userStatus : Nat
  m_isDummy : Bool
  deriving DecidableEq

namespace InterestPoint

/-- Modelled from the spec: the constructor `InterestPoint::InterestPoint()` is
defined in InterestPoint.cpp, which is not among the sources.  The header
gives `m_status = Valid`; a `cv::Point2f` starts at the origin; the record
starts with no classification bit set and is not a placeholder. -/
def new : InterestPoint :=
  { m_status := InterestPointStatus.Valid
    m_position := ⟨0, 0⟩
    m_userStatus := 0
    m_isDummy := false }

/-- Source: `setStatus`. -/
def setStatus (p : InterestPoint) (st : InterestPointStatus) : InterestPoint :=
  { p with m_status := st }

/-- Modelled from the spec: `setPosition` is defined in the missing
InterestPoint.cpp; it stores the position. -/
def setPosition (p : InterestPoint) (pos : Point2f) : InterestPoint :=
  { p with m_position := pos }

/-- Source: `makeDummy`. -/
def makeDummy (p : InterestPoint) : InterestPoint :=
  { p with m_isDummy := true }

/-- Modelled from the spec: `addToUserStatus` is defined in the missing
InterestPoint.cpp; it sets classification bit `i`. -/
def addToUserStatus (p : InterestPoint) (i : Nat) : InterestPoint :=
  { p with m_userStatus := if p.m_userStatus.testBit i then p.m_userStatus
                           else p.m_userStatus + 2 ^ i }

/-- Modelled from the spec: `removeFromUserStatus` is defined in the missing
InterestPoint.cpp; it clears classification bit `i`. -/
def removeFromUserStatus (p : InterestPoint) (i : Nat) : InterestPoint :=
  { p with m_userStatus := if p.m_userStatus.testBit i then p.m_userStatus - 2 ^ i
                           else p.m_userStatus }

end InterestPoint

/-- Modelled from the spec: `TrackedObject` belongs to the BioTracker core
library and is not among the sources.  It is a trajectory: the records of one
id by frame number, the most recently added record of a frame first
(last write wins). -/
structure TrackedObject where
  m_id : Nat
  m_objectsByFrame : List (Nat × InterestPoint)
  deriving DecidableEq

namespace TrackedObject

/-- Modelled from the spec: the record stored at exactly frame `frame`, the
latest one added for that frame (`get<InterestPoint>(frame)`). -/
def get (o : TrackedObject) (frame : Nat) : Option InterestPoint :=
  o.m_objectsByFrame.lookup frame

/-- Modelled from the spec: exact-frame test `hasValuesAtFrame(frame)`. -/
def hasValuesAtFrame (o : TrackedObject) (frame : Nat) : Bool :=
  (o.get frame).isSome

/-- Modelled from the spec: `add(frame, p)` records `p` at `frame`; it wins
over an older record of the same frame. -/
def add (o : TrackedObject) (frame : Nat) (p : InterestPoint) : TrackedObject :=
  { o with m_objectsByFrame := (frame, p) :: o.m_objectsByFrame }

/-- Rewrites the winning record of frame `frame` in a list of records. -/
def modifyRecord (frame : Nat) (f : InterestPoint → InterestPoint) :
    List (Nat × InterestPoint) → List (Nat × InterestPoint)
  | [] => []
  | e :: rest =>
    if e.1 = frame then (e.1, f e.2) :: rest else e :: modifyRecord frame f rest

/-- Modelled from the spec: `get<InterestPoint>(frame)` hands out a shared
pointer to the stored record, so a setter called through it changes the record
stored at `frame`; `modify frame f` is that write. -/
def modify (o : TrackedObject) (frame : Nat) (f : InterestPoint → InterestPoint) :
    TrackedObject :=
  { o with m_objectsByFrame := modifyRecord frame f o.m_objectsByFrame }

end TrackedObject

/-- Signals emitted by the tracker (`Q_EMIT`). -/
inductive Signal where
  | notifySomePointsInvalid
  | pausePlayback
  | update
  | notifyTooClose
  | notifyNoPoints
  | notifyNotInRange
  deriving DecidableEq, Repr

/-- The data members of `LucasKanadeTracker` that the bookkeeping reads or
writes, and the signals emitted so far (latest first).  `m_setUserStates` has
`m_numberOfUserStates` entries (the constructor sizes it and nothing resizes
it), so `m_numberOfUserStates` is its length. -/
structure LucasKanadeTracker where
  m_trackedObjects : List TrackedObject
  m_currentActivePoint : Int
  m_trackOnlyActive : Bool
  m_pauseOnInvalidPoint : Bool
  m_currentFrame : Nat
  m_setUserStates : List Bool
  m_emitted : List Signal
  m_currentHistory : Nat := 0
  deriving DecidableEq

/-- The sentinel position `dummy(-1, -1)` of `getCurrentPoints`. -/
def dummy : Point2f := ⟨-1, -1⟩

/-- The placeholder record `dummyIp` of `getCurrentPoints`. -/
def dummyIp : InterestPoint := InterestPoint.new.makeDummy

/-- One iteration of the loop of `getCurrentPoints` (src/LucasKanade.cpp
460-478): the position, filter entry and record pushed for trajectory `i`. -/
def getCurrentPointsEntry (s : LucasKanadeTracker) (frameNbr : Nat) (i : Nat)
    (o : TrackedObject) : Point2f × InterestPointStatus × InterestPoint :=
  if o.hasValuesAtFrame frameNbr then
    match o.get frameNbr with
    | some traj =>
      (traj.m_position,
       if traj.m_status = InterestPointStatus.Valid ∧ s.m_trackOnlyActive = true ∧
            (i : Int) ≠ s.m_currentActivePoint then
         InterestPointStatus.Not_Tracked
       else traj.m_status,
       traj)
    | none => (dummy, InterestPointStatus.Non_Existing, dummyIp)
  else (dummy, InterestPointStatus.Non_Existing, dummyIp)

/-- The loop of `getCurrentPoints` from index `i` on, over the remaining
trajectories. -/
def getCurrentPointsFrom (s : LucasKanadeTracker) (frameNbr : Nat) :
    Nat → List TrackedObject → List Point2f × List InterestPointStatus × List InterestPoint
  | _, [] => ([], [], [])
  | i, o :: os =>
    let e := getCurrentPointsEntry s frameNbr i o
    let r := getCurrentPointsFrom s frameNbr (i + 1) os
    (e.1 :: r.1, e.2.1 :: r.2.1, e.2.2 :: r.2.2)

/-- Source: `LucasKanadeTracker::getCurrentPoints` (src/LucasKanade.cpp
444-486).  Returns `(positions, filter, data)`. -/
def getCurrentPoints (s : LucasKanadeTracker) (frameNbr : Nat) :
    List Point2f × List InterestPointStatus × List InterestPoint :=
  getCurrentPointsFrom s frameNbr 0 s.m_trackedObjects

/-- The loop of `splitActivePoints` when not only the active point is tracked
(src/LucasKanade.cpp 580-585), from index `i` on: the positions and ids of the
entries whose filter is `Valid`, in the order they are pushed. -/
def splitActivePointsFrom :
    Nat → List Point2f → List InterestPointStatus → List Point2f × List Nat
  | i, p :: ps, f :: fs =>
    let r := splitActivePointsFrom (i + 1) ps fs
    if f = InterestPointStatus.Valid then (p :: r.1, i :: r.2) else r
  | _, _, _ => ([], [])

/-- Source: `LucasKanadeTracker::splitActivePoints` (src/LucasKanade.cpp
565-587).  Returns `(tempPos, activePoints)`; `none` when an assertion of the
source fails. -/
def splitActivePoints (s : LucasKanadeTracker) (pos : List Point2f)
    (filter : List InterestPointStatus) : Option (List Point2f × List Nat) :=
  if pos.length = filter.length ∧ (pos.length : Int) > s.m_currentActivePoint then
    if s.m_trackOnlyActive then
      if s.m_currentActivePoint ≥ 0 then
        match filter[s.m_currentActivePoint.toNat]?, pos[s.m_currentActivePoint.toNat]? with
        | some f, some p =>
          if f = InterestPointStatus.Valid then
            some ([p], [s.m_currentActivePoint.toNat])
          else some ([], [])
        | _, _ => none
      else some ([], [])
    else some (splitActivePointsFrom 0 pos filter)
  else none

/-- The second loop of `joinActivePoints` (src/LucasKanade.cpp 603-607) over
the remaining `activePoints`, `tempPos` and `status` entries: entry `id` of
`pos` and of `realStatus` is overwritten.  `none` when a vector is indexed out
of range. -/
def joinActivePointsLoop :
    List Nat → List Point2f → List Nat → List Point2f → List Nat →
      Option (List Point2f × List Nat)
  | [], _, _, pos, realStatus => some (pos, realStatus)
  | id :: ids, t :: ts, st :: sts, pos, realStatus =>
    if id < pos.length ∧ id < realStatus.length then
      joinActivePointsLoop ids ts sts (pos.set id t) (realStatus.set id st)
    else none
  | _ :: _, _, _, _, _ => none

/-- Source: `LucasKanadeTracker::joinActivePoints` (src/LucasKanade.cpp
589-610).  Returns the updated `pos` and `realStatus`; `none` when an
assertion fails or a vector is indexed out of range. -/
def joinActivePoints (pos tempPos : List Point2f) (activePoints : List Nat)
    (status : List Nat) : Option (List Point2f × List Nat) :=
  if tempPos.length = status.length ∧ pos.length ≥ tempPos.length then
    joinActivePointsLoop activePoints tempPos status pos (List.replicate pos.length 1)
  else none

/-- The body of the loop of `clampPosition` for one point (src/LucasKanade.cpp
552-561). -/
def clampPoint (p : Point2f) (w h : Int) : Point2f :=
  let x := if p.x < 0 then 0 else if p.x > (w : ℚ) then ((w - 1 : Int) : ℚ) else p.x
  let y := if p.y < 0 then 0 else if p.y > (h : ℚ) then ((h - 1 : Int) : ℚ) else p.y
  ⟨x, y⟩

/-- Source: `LucasKanadeTracker::clampPosition` (src/LucasKanade.cpp
547-563). -/
def clampPosition (pos : List Point2f) (w h : Int) : List Point2f :=
  pos.map (fun p => clampPoint p w h)

/-- The body of the loop of `updateCurrentPoints` for one id
(src/LucasKanade.cpp 508-519): the trajectory after the iteration, and whether
the point became invalid. -/
def updateCurrentPointsEntry (frameNbr : Nat) (o : TrackedObject) (position : Point2f)
    (status : Nat) (filter : InterestPointStatus) : TrackedObject × Bool :=
  if filter = InterestPointStatus.Valid ∨ filter = InterestPointStatus.Not_Tracked then
    let p := InterestPoint.new
    let p := if status ≠ 0 then p.setStatus filter
             else p.setStatus InterestPointStatus.Invalid
    let p := p.setPosition position
    (o.add frameNbr p, decide (status = 0))
  else (o, false)

/-- The loop of `updateCurrentPoints` (src/LucasKanade.cpp 507-520) over the
trajectories and the three vectors in parallel: the trajectories after the
loop and `somePointsAreInvalid`. -/
def updateCurrentPointsLoop (frameNbr : Nat) :
    List TrackedObject → List Point2f → List Nat → List InterestPointStatus →
      List TrackedObject × Bool
  | o :: os, p :: ps, st :: sts, f :: fs =>
    let e := updateCurrentPointsEntry frameNbr o p st f
    let r := updateCurrentPointsLoop frameNbr os ps sts fs
    (e.1 :: r.1, e.2 || r.2)
  | os, _, _, _ => (os, false)

/-- Source: `LucasKanadeTracker::updateCurrentPoints` (src/LucasKanade.cpp
488-528).  `none` when one of the three assertions fails. -/
def updateCurrentPoints (s : LucasKanadeTracker) (frameNbr : Nat) (positions : List Point2f)
    (status : List Nat) (filter : List InterestPointStatus) : Option LucasKanadeTracker :=
  if positions.length = s.m_trackedObjects.length ∧ positions.length = status.length ∧
      filter.length = positions.length then
    let r := updateCurrentPointsLoop frameNbr s.m_trackedObjects positions status filter
    let emitted :=
      if r.2 then
        if s.m_pauseOnInvalidPoint then
          Signal.pausePlayback :: Signal.notifySomePointsInvalid :: s.m_emitted
        else Signal.notifySomePointsInvalid :: s.m_emitted
      else s.m_emitted
    some { s with m_trackedObjects := r.1, m_emitted := emitted }
  else none

/-- The loop of `updateUserStates` (src/LucasKanade.cpp 632-638) from bit `i`
on, over the remaining entries of `m_setUserStates`. -/
def updateUserStatesLoop : Nat → List Bool → InterestPoint → InterestPoint
  | _, [], traj => traj
  | i, b :: bs, traj =>
    updateUserStatesLoop (i + 1) bs
      (if b then traj.addToUserStatus i else traj.removeFromUserStatus i)

/-- Source: `LucasKanadeTracker::updateUserStates` (src/LucasKanade.cpp
624-641).  `none` when `m_trackedObjects` is indexed out of range or the record
fetched at `currentFrame` does not exist. -/
def updateUserStates (s : LucasKanadeTracker) (currentFrame : Nat) :
    Option LucasKanadeTracker :=
  if s.m_currentActivePoint ≥ 0 then
    match s.m_trackedObjects[s.m_currentActivePoint.toNat]? with
    | none => none
    | some o =>
      if o.hasValuesAtFrame s.m_currentFrame then
        match o.get currentFrame with
        | none => none
        | some _ =>
          some { s with
            m_trackedObjects :=
              s.m_trackedObjects.set s.m_currentActivePoint.toNat
                (o.modify currentFrame (updateUserStatesLoop 0 s.m_setUserStates)) }
      else some s
  else some s

/-- The frame number `static_cast<ulong>(frame) - 1` read by `track`: unsigned
64-bit subtraction, which wraps for frame 0. -/
def prevFrame (frame : Nat) : Nat :=
  (frame + 2 ^ 64 - 1) % 2 ^ 64

/-- Source: `LucasKanadeTracker::track` (src/LucasKanade.cpp 124-203), without
the slider and image bookkeeping.  `cols` and `rows` are the size of the frame
(`m_gray.cols`, `m_gray.rows`); `calcOpticalFlowPyrLK` is the flow engine on
the two gray images of this pass, from the previous points to the new points
and their status flags. -/
def track (s : LucasKanadeTracker) (frame : Nat) (cols rows : Int)
    (calcOpticalFlowPyrLK : List Point2f → List Point2f × List Nat) :
    Option LucasKanadeTracker :=
  let s := { s with m_currentFrame := frame }
  let cur := getCurrentPoints s (prevFrame frame)
  let currentPoints := cur.1
  let filter := cur.2.1
  match splitActivePoints s currentPoints filter with
  | none => none
  | some (currentPointsOnlyActive, activePointIds) =>
    if currentPointsOnlyActive ≠ [] then
      let flow := calcOpticalFlowPyrLK currentPointsOnlyActive
      let newPoints := flow.1
      let status := flow.2
      match joinActivePoints currentPoints newPoints activePointIds status with
      | none => none
      | some (currentPoints, status) =>
        -- the source clamps `newPoints` here, after they were copied
        let _newPoints := clampPosition newPoints cols rows
        match updateCurrentPoints s frame currentPoints status filter with
        | none => none
        | some s => updateUserStates s frame
    else some s

/-- A `QPoint`: a click position in integer pixel coordinates. -/
structure QPoint where
  x : Int
  y : Int
  deriving DecidableEq

/-- The rational `2 ^ e` for an integer exponent `e`. -/
def pow2 (e : Int) : ℚ :=
  if 0 ≤ e then ((2 ^ e.toNat : Nat) : ℚ) else 1 / ((2 ^ (-e).toNat : Nat) : ℚ)

/-- The number of halvings that bring `n` below 2; `fuel` bounds their number,
and `n` of them are always enough. -/
def log2Loop : Nat → Nat → Nat
  | 0, _ => 0
  | fuel + 1, n => if n < 2 then 0 else log2Loop fuel (n / 2) + 1

/-- The position of the leading bit of `n`: `2 ^ log2Floor n ≤ n < 2 ^ (log2Floor n + 1)`
for `n ≥ 1`. -/
def log2Floor (n : Nat) : Nat :=
  log2Loop n n

/-- The binary exponent `e` of a rational `x ≠ 0`: `2 ^ e ≤ |x| < 2 ^ (e + 1)`. -/
def floatExponent (x : ℚ) : Int :=
  let e0 : Int := (log2Floor x.num.natAbs : Int) - (log2Floor x.den : Int)
  if pow2 e0 ≤ |x| then e0 else e0 - 1

/-- The integer nearest to `x`, ties to the even one. -/
def roundHalfEven (x : ℚ) : Int :=
  let f := Rat.floor x
  if x - (f : ℚ) < 1 / 2 then f
  else if x - (f : ℚ) > 1 / 2 then f + 1
  else if f % 2 = 0 then f else f + 1

/-- IEEE 754 rounding to nearest, ties to even, of the exact result `x` to a
binary format with `p` significant bits: `p = 24` for `float`, `p = 53` for
`double`.  The exponent range is not limited. -/
def roundToBits (p : Nat) (x : ℚ) : ℚ :=
  if x = 0 then 0
  else
    let quantum := pow2 (floatExponent x - ((p : Int) - 1))
    (roundHalfEven (x / quantum) : ℚ) * quantum

/-- The bits of the integer square root of `n` below bit `i`, added to `r`. -/
def natSqrtLoop (n : Nat) : Nat → Nat → Nat
  | 0, r => r
  | i + 1, r =>
    if (r + 2 ^ i) * (r + 2 ^ i) ≤ n then natSqrtLoop n i (r + 2 ^ i)
    else natSqrtLoop n i r

/-- The integer square root: the largest `r` with `r * r ≤ n`. -/
def natSqrt (n : Nat) : Nat :=
  natSqrtLoop n (log2Floor n / 2 + 1) 0

/-- `std::sqrt` on a `double` `x ≥ 0`: the square root rounded to 53 bits.  The
root is first cut to an integer `n` of at least 64 bits, scaled by `2 ^ k`; the
root of a `double` never lies half way between two `double`s, so the bits cut
off decide the rounding. -/
def float64Sqrt (x : ℚ) : ℚ :=
  if x ≤ 0 then 0
  else
    let k := 64 + log2Floor x.den
    let n := natSqrt ((x.num.natAbs * 4 ^ k) / x.den)
    let q := 2 ^ (log2Floor n + 1 - 53)
    let t := n / q
    let m := if 2 * (n % q) ≥ q then t + 1 else t
    ((m * q : Nat) : ℚ) / ((2 ^ k : Nat) : ℚ)

/-- The value of `cv::norm(p - q)` for two `cv::Point2f` (OpenCV, not among
the sources): the difference is taken in `float`, and the norm is
`std::sqrt((double)d.x * d.x + (double)d.y * d.y)` in `double`. -/
def cvNorm (p q : Point2f) : ℚ :=
  let dx := roundToBits 24 (p.x - q.x)
  let dy := roundToBits 24 (p.y - q.y)
  float64Sqrt (roundToBits 53 (roundToBits 53 (dx * dx) + roundToBits 53 (dy * dy)))

/-- Source: `LucasKanadeTracker::toCv` (src/LucasKanade.cpp 530-533); the
`static_cast<float>` of an `int` rounds to 24 bits. -/
def toCv (pos : QPoint) : Point2f :=
  ⟨roundToBits 24 (pos.x : ℚ), roundToBits 24 (pos.y : ℚ)⟩

/-- The exact square of the Euclidean distance of `p` and `q`.  The source
does not compute it (see `cvNorm`); it states distances in the theorems. -/
def normSq (p q : Point2f) : ℚ :=
  (p.x - q.x) * (p.x - q.x) + (p.y - q.y) * (p.y - q.y)

/-- Source: `LucasKanadeTracker::inputChanged` (src/LucasKanade.cpp
333-336). -/
def inputChanged (s : LucasKanadeTracker) : LucasKanadeTracker :=
  { s with m_trackedObjects := [] }

/-- Source: `LucasKanadeTracker::tryCreateNewPoint` (src/LucasKanade.cpp
342-384).  `cornerSubPix` is the sub-pixel refinement of OpenCV on the current
gray image. -/
def tryCreateNewPoint (s : LucasKanadeTracker) (cornerSubPix : Point2f → Point2f)
    (pos : QPoint) : LucasKanadeTracker :=
  let newPoints := (getCurrentPoints s s.m_currentFrame).1
  let point := toCv pos
  if newPoints.any (fun otherPos => decide (cvNorm point otherPos ≤ 5)) then
    { s with m_emitted := Signal.notifyTooClose :: s.m_emitted }
  else
    let newPos := cornerSubPix point
    let p := (InterestPoint.new.setPosition ⟨newPos.x, newPos.y⟩).setStatus
      InterestPointStatus.Valid
    let id := s.m_trackedObjects.length
    let o := (⟨id, []⟩ : TrackedObject).add s.m_currentFrame p
    { s with
      m_trackedObjects := s.m_trackedObjects ++ [o]
      m_currentActivePoint := (id : Int)
      m_emitted := Signal.update :: s.m_emitted }

/-- The loop of `activateExistingPoint` (src/LucasKanade.cpp 394-400) from
index `i` on, over the remaining points: the closest id, given the closest id
and its distance so far. -/
def activateExistingPointLoop (point : Point2f) :
    Nat → List Point2f → Nat → ℚ → Nat
  | _, [], currentClosestId, _ => currentClosestId
  | i, q :: qs, currentClosestId, currentMinDist =>
    if currentMinDist > cvNorm point q then
      activateExistingPointLoop point (i + 1) qs i (cvNorm point q)
    else activateExistingPointLoop point (i + 1) qs currentClosestId currentMinDist

/-- Source: `LucasKanadeTracker::activateExistingPoint` (src/LucasKanade.cpp
386-407).  `newPoints` has one entry per trajectory, so `newPoints[0]` exists in
the first branch and the case `[]` does not occur there. -/
def activateExistingPoint (s : LucasKanadeTracker) (pos : QPoint) : LucasKanadeTracker :=
  if s.m_trackedObjects.length > 0 then
    let point := toCv pos
    match (getCurrentPoints s s.m_currentFrame).1 with
    | q :: qs =>
      { s with
        m_currentActivePoint := (activateExistingPointLoop point 1 qs 0 (cvNorm point q) : Nat)
        m_emitted := Signal.update :: s.m_emitted }
    | [] => s
  else
    { s with
      m_currentActivePoint := -1
      m_emitted := Signal.notifyNoPoints :: s.m_emitted }

/-- Source: `LucasKanadeTracker::moveCurrentActivePointTo`
(src/LucasKanade.cpp 409-422).  `none` when `m_trackedObjects` is indexed out
of range. -/
def moveCurrentActivePointTo (s : LucasKanadeTracker) (pos : QPoint) :
    Option LucasKanadeTracker :=
  if s.m_trackedObjects ≠ [] ∧ s.m_currentActivePoint ≠ -1 then
    if s.m_currentActivePoint > (s.m_trackedObjects.length : Int) then
      some { s with m_emitted := Signal.notifyNotInRange :: s.m_emitted }
    else
      let p := (InterestPoint.new.setStatus InterestPointStatus.Valid).setPosition (toCv pos)
      if s.m_currentActivePoint ≥ 0 then
        match s.m_trackedObjects[s.m_currentActivePoint.toNat]? with
        | none => none
        | some o =>
          some { s with
            m_trackedObjects :=
              s.m_trackedObjects.set s.m_currentActivePoint.toNat (o.add s.m_currentFrame p)
            m_emitted := Signal.update :: s.m_emitted }
      else none
  else some s

/-- Source: `LucasKanadeTracker::deleteCurrentActivePoint`
(src/LucasKanade.cpp 424-435).  `none` when `m_trackedObjects` is indexed out
of range. -/
def deleteCurrentActivePoint (s : LucasKanadeTracker) : Option LucasKanadeTracker :=
  if s.m_currentActivePoint ≥ 0 then
    match s.m_trackedObjects[s.m_currentActivePoint.toNat]? with
    | none => none
    | some o =>
      if o.hasValuesAtFrame s.m_currentFrame then
        some { s with
          m_trackedObjects :=
            s.m_trackedObjects.set s.m_currentActivePoint.toNat
              (o.modify s.m_currentFrame
                (fun traj => traj.setStatus InterestPointStatus.Invalid))
          m_emitted := Signal.update :: s.m_emitted }
      else some s
  else some s

/-- The body of the loop of `activateAllNonTrackedPoints` for one trajectory
(src/LucasKanade.cpp 614-620). -/
def activateAllNonTrackedPointsEntry (frame : Nat) (o : TrackedObject) : TrackedObject :=
  if o.hasValuesAtFrame frame then
    o.modify frame (fun traj =>
      if traj.m_status = InterestPointStatus.Not_Tracked then
        traj.setStatus InterestPointStatus.Valid
      else traj)
  else o

/-- Source: `LucasKanadeTracker::activateAllNonTrackedPoints`
(src/LucasKanade.cpp 612-622). -/
def activateAllNonTrackedPoints (s : LucasKanadeTracker) (frame : Nat) :
    LucasKanadeTracker :=
  { s with
    m_trackedObjects := s.m_trackedObjects.map (activateAllNonTrackedPointsEntry frame) }

/-- The value of `Qt::Checked`. -/
def Qt_Checked : Int := 2

/-- Source: `LucasKanadeTracker::checkboxChanged_activeUser`
(src/LucasKanade.cpp 669-676). -/
def checkboxChanged_activeUser (s : LucasKanadeTracker) (state : Int) :
    LucasKanadeTracker :=
  let s := { s with m_trackOnlyActive := decide (state = Qt_Checked) }
  if ¬ (s.m_trackOnlyActive = true) then activateAllNonTrackedPoints s s.m_currentFrame
  else s

/-- Source: `LucasKanadeTracker::sliderChanged_history` (src/LucasKanade.cpp
760-764); the slider value lies in `0..150`. -/
def sliderChanged_history (s : LucasKanadeTracker) (value : Nat) : LucasKanadeTracker :=
  { s with m_currentHistory := value, m_emitted := Signal.update :: s.m_emitted }

/-- The history loop of `paintOverlay` (src/LucasKanade.cpp 239-247) from
counter `t` on; `fuel` bounds the number of iterations left, and
`m_currentHistory` of them are always enough. -/
def paintOverlayHistoryLoop (s : LucasKanadeTracker) (currentFrame : Nat) :
    Nat → Nat → List (List Point2f)
  | _, 0 => []
  | t, fuel + 1 =>
    if t < s.m_currentHistory then
      if t > currentFrame then []
      else
        (getCurrentPoints s (currentFrame - t)).1 ::
          paintOverlayHistoryLoop s currentFrame (t + 1) fuel
    else []

/-- The vector `history` that `paintOverlay(currentFrame)` collects
(src/LucasKanade.cpp 237-247). -/
def paintOverlayHistory (s : LucasKanadeTracker) (currentFrame : Nat) :
    List (List Point2f) :=
  paintOverlayHistoryLoop { s with m_currentFrame := currentFrame } currentFrame 1
    s.m_currentHistory

/-- Modelled from the spec: `maximumFrameNumber` of the BioTracker core
library, the largest frame number that has a record (0 when there is none). -/
def maximumFrameNumberOf : List (Nat × InterestPoint) → Nat
  | [] => 0
  | e :: rest => max e.1 (maximumFrameNumberOf rest)

/-- Modelled from the spec: `TrackedObject::maximumFrameNumber`. -/
def TrackedObject.maximumFrameNumber (o : TrackedObject) : Nat :=
  maximumFrameNumberOf o.m_objectsByFrame

/-- One line of the export: frame, trajectory id, x, y and the classification
bits (`getStatusAsI`). -/
structure ExportRow where
  frame : Nat
  id : Nat
  x : ℚ
  y : ℚ
  userStatus : Nat
  deriving DecidableEq

/-- The first loop of `clicked_print` (src/LucasKanade.cpp 698-701) over the
remaining trajectories. -/
def clicked_print_maxTs : List TrackedObject → Nat → Nat
  | [], maxTs => maxTs
  | o :: os, maxTs =>
    clicked_print_maxTs os
      (if o.maximumFrameNumber > maxTs then o.maximumFrameNumber else maxTs)

/-- The inner loop of `clicked_print` (src/LucasKanade.cpp 705-722) for one
frame, from trajectory `i` on: the lines appended to the output. -/
def clicked_print_frame (frame : Nat) : Nat → List TrackedObject → List ExportRow
  | _, [] => []
  | i, o :: os =>
    if o.hasValuesAtFrame frame then
      match o.get frame with
      | some traj =>
        if traj.m_status = InterestPointStatus.Valid then
          ⟨frame, i, traj.m_position.x, traj.m_position.y, traj.m_userStatus⟩ ::
            clicked_print_frame frame (i + 1) os
        else clicked_print_frame frame (i + 1) os
      | none => clicked_print_frame frame (i + 1) os
    else clicked_print_frame frame (i + 1) os

/-- Source: `LucasKanadeTracker::clicked_print` (src/LucasKanade.cpp 695-723):
the lines of the output, in the order they are appended.  The bound
`maxTs + 1` of the frame loop is a `size_t` and wraps at `2^64`. -/
def clicked_print (s : LucasKanadeTracker) : List ExportRow :=
  (List.range ((clicked_print_maxTs s.m_trackedObjects 0 + 1) % 2 ^ 64)).flatMap
    (fun frame => clicked_print_frame frame 0 s.m_trackedObjects)

/-- The user and frame events of the tracker. -/
inductive Event where
  | tryCreateNewPoint (cornerSubPix : Point2f → Point2f) (pos : QPoint)
  | activateExistingPoint (pos : QPoint)
  | moveCurrentActivePointTo (pos : QPoint)
  | deleteCurrentActivePoint
  | track (frame : Nat) (cols rows : Int)
      (calcOpticalFlowPyrLK : List Point2f → List Point2f × List Nat)
  | checkboxChanged_activeUser (state : Int)
  | inputChanged

/-- The tracker after one event; `none` when the source fails an assertion or
indexes a vector out of range. -/
def step (s : LucasKanadeTracker) : Event → Option LucasKanadeTracker
  | Event.tryCreateNewPoint cornerSubPix pos => some (tryCreateNewPoint s cornerSubPix pos)
  | Event.activateExistingPoint pos => some (activateExistingPoint s pos)
  | Event.moveCurrentActivePointTo pos => moveCurrentActivePointTo s pos
  | Event.deleteCurrentActivePoint => deleteCurrentActivePoint s
  | Event.track frame cols rows flow => track s frame cols rows flow
  | Event.checkboxChanged_activeUser state => some (checkboxChanged_activeUser s state)
  | Event.inputChanged => some (inputChanged s)

/-- The tracker after a sequence of events. -/
def run (s : LucasKanadeTracker) : List Event → Option LucasKanadeTracker
  | [] => some s
  | e :: es => (step s e).bind (fun s' => run s' es)

/-- The tracker after construction: no trajectory, no active point
(`m_currentActivePoint = -1`), all points tracked, three classification
checkboxes unchecked, no history.  The source leaves `m_currentFrame` without
an initial value; 0 stands for the first frame shown. -/
def initialTracker : LucasKanadeTracker :=
  { m_trackedObjects := []
    m_currentActivePoint := -1
    m_trackOnlyActive := false
    m_pauseOnInvalidPoint := false
    m_currentFrame := 0
    m_setUserStates := [false, false, false]
    m_emitted := []
    m_currentHistory := 0 }

/-- Status and position of the record of a trajectory at exactly frame `g`, if
there is one: what a record says apart from its classification bits. -/
def TrackedObject.view (o : TrackedObject) (g : Nat) :
    Option (InterestPointStatus × Point2f) :=
  (o.get g).map (fun r => (r.m_status, r.m_position))

/-! ## Concrete trackers: the scenario of two points `A` and `B` -/

/-- A `Valid` record at position `(x, y)`, as `tryCreateNewPoint` and
`moveCurrentActivePointTo` build it. -/
def validRecord (x y : ℚ) : InterestPoint :=
  (InterestPoint.new.setStatus InterestPointStatus.Valid).setPosition ⟨x, y⟩

/-- Two trajectories: `A` at `(10, 10)` and `B` at `(50, 50)`, both placed at
frame 0. -/
def storeAB : List TrackedObject :=
  [⟨0, [(0, validRecord 10 10)]⟩, ⟨1, [(0, validRecord 50 50)]⟩]

/-- The tracker after placing `A` and `B` at frame 0: `B` is the active point
and all points are tracked. -/
def trackerAB : LucasKanadeTracker :=
  { m_trackedObjects := storeAB
    m_currentActivePoint := 1
    m_trackOnlyActive := false
    m_pauseOnInvalidPoint := false
    m_currentFrame := 0
    m_setUserStates := [false, false, false]
    m_emitted := [] }

/-- The positions of `A` and `B` at frame 0. -/
def positionsAB : List Point2f := [⟨10, 10⟩, ⟨50, 50⟩]

/-- Status of the record of trajectory `i` at exactly frame `g`, if any. -/
def recordStatus (s : LucasKanadeTracker) (i g : Nat) : Option InterestPointStatus :=
  (s.m_trackedObjects[i]?).bind (fun o => (o.get g).map (fun r => r.m_status))

/-- Position of the record of trajectory `i` at exactly frame `g`, if any. -/
def recordPosition (s : LucasKanadeTracker) (i g : Nat) : Option Point2f :=
  (s.m_trackedObjects[i]?).bind (fun o => (o.get g).map (fun r => r.m_position))

/-- A flow engine result for frame 1: the point at `(10, 10)` moves to
`(12, 11)` with success, every other point fails and comes back at
`(70, 80)`. -/
def flowAB (ps : List Point2f) : List Point2f × List Nat :=
  (ps.map (fun p => if p.x = 10 then ⟨12, 11⟩ else ⟨70, 80⟩),
   ps.map (fun p => if p.x = 10 then 1 else 0))

/-- A flow engine result in which every point succeeds and stays in place. -/
def flowStill (ps : List Point2f) : List Point2f × List Nat :=
  (ps, ps.map (fun _ => 1))

/-- A flow engine result in which every point succeeds and leaves a
`100 x 100` image: the point at `(10, 10)` goes to `(-5, -5)`, the others to
`(170, 80)`. -/
def flowOutside (ps : List Point2f) : List Point2f × List Nat :=
  (ps.map (fun p => if p.x = 10 then ⟨-5, -5⟩ else ⟨170, 80⟩), ps.map (fun _ => 1))

/-- The tracker at frame 0 after `A` (the active point) was deleted with the
`d` key and "track only active" was switched on: `A` is `Invalid`, `B` is
stored `Valid`. -/
def trackerOnlyDeletedA : LucasKanadeTracker :=
  { m_trackedObjects :=
      [⟨0, [(0, (validRecord 10 10).setStatus InterestPointStatus.Invalid)]⟩,
       ⟨1, [(0, validRecord 50 50)]⟩]
    m_currentActivePoint := 0
    m_trackOnlyActive := true
    m_pauseOnInvalidPoint := false
    m_currentFrame := 0
    m_setUserStates := [false, false, false]
    m_emitted := [Signal.update, Signal.update, Signal.update, Signal.update] }

/-- The tracker after `track(1)` on `trackerAB` with the flow result `flowAB`:
`A` moved to `(12, 11)`, `B` failed and is `Invalid` at frame 1. -/
def trackerAfterFrame1 : LucasKanadeTracker :=
  { m_trackedObjects :=
      [⟨0, [(1, validRecord 12 11), (0, validRecord 10 10)]⟩,
       ⟨1, [(1, (validRecord 70 80).setStatus InterestPointStatus.Invalid),
            (0, validRecord 50 50)]⟩]
    m_currentActivePoint := 1
    m_trackOnlyActive := false
    m_pauseOnInvalidPoint := false
    m_currentFrame := 1
    m_setUserStates := [false, false, false]
    m_emitted := [Signal.notifySomePointsInvalid] }

/-- A tracker at frame 1 whose only trajectory was placed at frame 0 at
`(50, 50)` and has no record at frame 1 (the video was stepped forward without
tracking). -/
def trackerSteppedOn : LucasKanadeTracker :=
  { m_trackedObjects := [⟨0, [(0, validRecord 50 50)]⟩]
    m_currentActivePoint := 0
    m_trackOnlyActive := false
    m_pauseOnInvalidPoint := false
    m_currentFrame := 1
    m_setUserStates := [false, false, false]
    m_emitted := [] }

/-- The tracker holding `A` and `B` with "track only active" switched on and
`A` the active point. -/
def trackerOnlyA : LucasKanadeTracker :=
  { trackerAB with m_currentActivePoint := 0, m_trackOnlyActive := true }

/-- A tracker at frame 5 with history depth 3 whose only point has been
`Valid` since frame 0, at `(10 + f, 20)` at frame `f`. -/
def trackerSixFrames : LucasKanadeTracker :=
  { m_trackedObjects :=
      [⟨0, [(5, validRecord 15 20), (4, validRecord 14 20), (3, validRecord 13 20),
            (2, validRecord 12 20), (1, validRecord 11 20), (0, validRecord 10 20)]⟩]
    m_currentActivePoint := 0
    m_trackOnlyActive := false
    m_pauseOnInvalidPoint := false
    m_currentFrame := 5
    m_setUserStates := [false, false, false]
    m_emitted := []
    m_currentHistory := 3 }

/-- A sub-pixel refinement that leaves the point where it is. -/
def cornerSubPixStill (p : Point2f) : Point2f := p

/-- The tracker after a point was created at `(5, 5)` on the initial tracker
and a new video was opened. -/
def trackerAfterInputChanged : LucasKanadeTracker :=
  { initialTracker with
    m_currentActivePoint := 0
    m_emitted := [Signal.update] }

/-- The `float` values nearest to 0.2 and 0.6. -/
def pointFifths : Point2f := ⟨13421773 / 67108864, 5033165 / 8388608⟩

/-- A sub-pixel refinement that moves the point to `pointFifths`. -/
def cornerSubPixToFifths (_ : Point2f) : Point2f := pointFifths

/-- The tracker after a click at `(0, 1)` on the initial tracker created a
point that the refinement placed at `pointFifths`. -/
def trackerRefinedPoint : LucasKanadeTracker :=
  { initialTracker with
    m_trackedObjects := [⟨0, [(0, validRecord (13421773 / 67108864) (5033165 / 8388608))]⟩]
    m_currentActivePoint := 0
    m_emitted := [Signal.update] }

/-! ## Lemmas on trajectories and on the projection of a frame -/

theorem TrackedObject.hasValuesAtFrame_eq_false {o : TrackedObject} {frame : Nat}
    (h : o.get frame = none) : o.hasValuesAtFrame frame = false := by
  simp [TrackedObject.hasValuesAtFrame, h]

theorem TrackedObject.hasValuesAtFrame_eq_true {o : TrackedObject} {frame : Nat}
    {p : InterestPoint} (h : o.get frame = some p) : o.hasValuesAtFrame frame = true := by
  simp [TrackedObject.hasValuesAtFrame, h]

theorem getCurrentPointsEntry_none (s : LucasKanadeTracker) (frameNbr i : Nat)
    (o : TrackedObject) (h : o.get frameNbr = none) :
    getCurrentPointsEntry s frameNbr i o =
      (dummy, InterestPointStatus.Non_Existing, dummyIp) := by
  simp [getCurrentPointsEntry, TrackedObject.hasValuesAtFrame_eq_false h]

theorem getCurrentPointsEntry_some (s : LucasKanadeTracker) (frameNbr i : Nat)
    (o : TrackedObject) (traj : InterestPoint) (h : o.get frameNbr = some traj) :
    getCurrentPointsEntry s frameNbr i o =
      (traj.m_position,
       if traj.m_status = InterestPointStatus.Valid ∧ s.m_trackOnlyActive = true ∧
            (i : Int) ≠ s.m_currentActivePoint then
         InterestPointStatus.Not_Tracked
       else traj.m_status,
       traj) := by
  simp [getCurrentPointsEntry, TrackedObject.hasValuesAtFrame_eq_true h, h]

theorem getCurrentPointsFrom_length (s : LucasKanadeTracker) (frameNbr : Nat) :
    ∀ (os : List TrackedObject) (j : Nat),
      (getCurrentPointsFrom s frameNbr j os).1.length = os.length ∧
      (getCurrentPointsFrom s frameNbr j os).2.1.length = os.length ∧
      (getCurrentPointsFrom s frameNbr j os).2.2.length = os.length
  | [], _ => by simp [getCurrentPointsFrom]
  | o :: os, j => by
    have ih := getCurrentPointsFrom_length s frameNbr os (j + 1)
    simp [getCurrentPointsFrom, ih]

theorem getCurrentPointsFrom_getElem? (s : LucasKanadeTracker) (frameNbr : Nat) :
    ∀ (os : List TrackedObject) (j i : Nat) (o : TrackedObject), os[i]? = some o →
      (getCurrentPointsFrom s frameNbr j os).1[i]? =
          some (getCurrentPointsEntry s frameNbr (j + i) o).1 ∧
      (getCurrentPointsFrom s frameNbr j os).2.1[i]? =
          some (getCurrentPointsEntry s frameNbr (j + i) o).2.1 ∧
      (getCurrentPointsFrom s frameNbr j os).2.2[i]? =
          some (getCurrentPointsEntry s frameNbr (j + i) o).2.2
  | [], _, _, _, h => by simp at h
  | o' :: os, j, 0, o, h => by
    simp at h
    subst h
    simp [getCurrentPointsFrom]
  | o' :: os, j, i + 1, o, h => by
    simp at h
    have ih := getCurrentPointsFrom_getElem? s frameNbr os (j + 1) i o h
    have e : j + 1 + i = j + (i + 1) := by omega
    rw [e] at ih
    simpa [getCurrentPointsFrom] using ih

/-- C1: `getCurrentPoints` returns three lists with one entry per trajectory.
For a trajectory `i` with no record at exactly the frame, the position is the
sentinel `(-1, -1)`, the status `Non_Existing` and the record the dummy
placeholder, whatever the other trajectories hold.  Otherwise position and
record are the stored ones, and the status is `Not_Tracked` when only the
active point is tracked, `i` is not the active id and the stored status is
`Valid`, and the stored status in every other case. -/
theorem getCurrentPoints_projection (s : LucasKanadeTracker) (frameNbr : Nat) :
    (getCurrentPoints s frameNbr).1.length = s.m_trackedObjects.length ∧
    (getCurrentPoints s frameNbr).2.1.length = s.m_trackedObjects.length ∧
    (getCurrentPoints s frameNbr).2.2.length = s.m_trackedObjects.length ∧
    dummyIp.m_isDummy = true ∧
    ∀ (i : Nat) (o : TrackedObject), s.m_trackedObjects[i]? = some o →
      (o.get frameNbr = none →
        (getCurrentPoints s frameNbr).1[i]? = some ⟨-1, -1⟩ ∧
        (getCurrentPoints s frameNbr).2.1[i]? = some InterestPointStatus.Non_Existing ∧
        (getCurrentPoints s frameNbr).2.2[i]? = some dummyIp) ∧
      (∀ traj : InterestPoint, o.get frameNbr = some traj →
        (getCurrentPoints s frameNbr).1[i]? = some traj.m_position ∧
        (getCurrentPoints s frameNbr).2.2[i]? = some traj ∧
        (getCurrentPoints s frameNbr).2.1[i]? =
          some (if s.m_trackOnlyActive = true ∧ (i : Int) ≠ s.m_currentActivePoint ∧
                  traj.m_status = InterestPointStatus.Valid then
                InterestPointStatus.Not_Tracked
              else traj.m_status)) := by
  have hl := getCurrentPointsFrom_length s frameNbr s.m_trackedObjects 0
  refine ⟨hl.1, hl.2.1, hl.2.2, rfl, ?_⟩
  intro i o hi
  have hg := getCurrentPointsFrom_getElem? s frameNbr s.m_trackedObjects 0 i o hi
  rw [Nat.zero_add] at hg
  constructor
  · intro hn
    rw [getCurrentPointsEntry_none s frameNbr i o hn] at hg
    exact hg
  · intro traj ht
    rw [getCurrentPointsEntry_some s frameNbr i o traj ht] at hg
    refine ⟨hg.1, hg.2.2, ?_⟩
    rw [getCurrentPoints, hg.2.1]
    congr 1
    by_cases h1 : traj.m_status = InterestPointStatus.Valid <;>
      by_cases h2 : s.m_trackOnlyActive = true <;>
      by_cases h3 : (i : Int) = s.m_currentActivePoint <;> simp [h1, h2, h3]

/-! ## Lemmas on `splitActivePoints` -/

theorem splitActivePointsFrom_length :
    ∀ (ps : List Point2f) (fs : List InterestPointStatus) (j : Nat),
      (splitActivePointsFrom j ps fs).1.length = (splitActivePointsFrom j ps fs).2.length
  | [], _, _ => by simp [splitActivePointsFrom]
  | _ :: _, [], _ => by simp [splitActivePointsFrom]
  | p :: ps, f :: fs, j => by
    have ih := splitActivePointsFrom_length ps fs (j + 1)
    by_cases hf : f = InterestPointStatus.Valid <;> simp [splitActivePointsFrom, hf, ih]

theorem splitActivePointsFrom_mem :
    ∀ (ps : List Point2f) (fs : List InterestPointStatus) (j i : Nat),
      ps.length = fs.length →
      (i ∈ (splitActivePointsFrom j ps fs).2 ↔
        j ≤ i ∧ fs[i - j]? = some InterestPointStatus.Valid)
  | [], [], _, _, _ => by simp [splitActivePointsFrom]
  | [], _ :: _, _, _, h => by simp at h
  | _ :: _, [], _, _, h => by simp at h
  | p :: ps, f :: fs, j, i, h => by
    have hl : ps.length = fs.length := by simpa using h
    have ih := splitActivePointsFrom_mem ps fs (j + 1) i hl
    by_cases hij : i = j
    · subst hij
      have hn : ¬ (i + 1 ≤ i) := by omega
      by_cases hf : f = InterestPointStatus.Valid <;>
        simp [splitActivePointsFrom, hf, ih, hn]
    · by_cases hlt : j + 1 ≤ i
      · obtain ⟨d, rfl⟩ : ∃ d, i = j + 1 + d := ⟨i - (j + 1), by omega⟩
        have e1 : j + 1 + d - (j + 1) = d := by omega
        have e2 : j + 1 + d - j = d + 1 := by omega
        have e3 : j ≤ j + 1 + d := by omega
        rw [e1] at ih
        by_cases hf : f = InterestPointStatus.Valid <;>
          simp [splitActivePointsFrom, hf, ih, hij, e2, e3, hlt]
      · have hn : ¬ (j ≤ i) := by omega
        by_cases hf : f = InterestPointStatus.Valid <;>
          simp [splitActivePointsFrom, hf, ih, hij, hlt, hn]

theorem splitActivePointsFrom_sorted :
    ∀ (ps : List Point2f) (fs : List InterestPointStatus) (j : Nat),
      ps.length = fs.length →
      (splitActivePointsFrom j ps fs).2.Pairwise (fun a b => a < b)
  | [], [], _, _ => by simp [splitActivePointsFrom]
  | [], _ :: _, _, h => by simp at h
  | _ :: _, [], _, h => by simp at h
  | p :: ps, f :: fs, j, h => by
    have hl : ps.length = fs.length := by simpa using h
    have ih := splitActivePointsFrom_sorted ps fs (j + 1) hl
    by_cases hf : f = InterestPointStatus.Valid
    · simp only [splitActivePointsFrom, hf, if_true, List.pairwise_cons]
      refine ⟨?_, ih⟩
      intro a ha
      have := (splitActivePointsFrom_mem ps fs (j + 1) a hl).1 ha
      omega
    · simpa [splitActivePointsFrom, hf] using ih

theorem splitActivePointsFrom_getElem? :
    ∀ (ps : List Point2f) (fs : List InterestPointStatus) (j k id : Nat),
      ps.length = fs.length →
      (splitActivePointsFrom j ps fs).2[k]? = some id →
      j ≤ id ∧ id - j < ps.length ∧ (splitActivePointsFrom j ps fs).1[k]? = ps[id - j]?
  | [], [], _, _, _, _, hk => by simp [splitActivePointsFrom] at hk
  | [], _ :: _, _, _, _, h, _ => by simp at h
  | _ :: _, [], _, _, _, h, _ => by simp at h
  | p :: ps, f :: fs, j, k, id, h, hk => by
    have hl : ps.length = fs.length := by simpa using h
    have ih := splitActivePointsFrom_getElem? ps fs (j + 1)
    have step : ∀ k' : Nat, (splitActivePointsFrom (j + 1) ps fs).2[k']? = some id →
        j ≤ id ∧ id - j < (p :: ps).length ∧
          (splitActivePointsFrom (j + 1) ps fs).1[k']? = (p :: ps)[id - j]? := by
      intro k' hk'
      obtain ⟨h1, h2, h3⟩ := ih k' id hl hk'
      obtain ⟨d, rfl⟩ : ∃ d, id = j + 1 + d := ⟨id - (j + 1), by omega⟩
      have e1 : j + 1 + d - (j + 1) = d := by omega
      have e2 : j + 1 + d - j = d + 1 := by omega
      rw [e1] at h2 h3
      rw [e2]
      refine ⟨by omega, by simpa using h2, by simpa using h3⟩
    by_cases hf : f = InterestPointStatus.Valid
    · simp only [splitActivePointsFrom, hf, if_true] at hk ⊢
      cases k with
      | zero =>
        simp at hk
        subst hk
        simp
      | succ k' =>
        simp only [List.getElem?_cons_succ] at hk ⊢
        exact step k' hk
    · simp only [splitActivePointsFrom, hf, if_false] at hk ⊢
      exact step k hk

theorem splitActivePoints_char (s : LucasKanadeTracker) (pos : List Point2f)
    (filter : List InterestPointStatus) (hlen : pos.length = filter.length)
    (hact : s.m_currentActivePoint < (pos.length : Int)) :
    ∃ tempPos activePoints, splitActivePoints s pos filter = some (tempPos, activePoints) ∧
      tempPos.length = activePoints.length ∧
      (∀ (k id : Nat), activePoints[k]? = some id →
        id < pos.length ∧ tempPos[k]? = pos[id]?) ∧
      activePoints.Pairwise (fun a b => a < b) ∧
      (∀ i : Nat, i ∈ activePoints → filter[i]? = some InterestPointStatus.Valid) ∧
      (s.m_trackOnlyActive = false →
        ∀ i : Nat, filter[i]? = some InterestPointStatus.Valid → i ∈ activePoints) ∧
      (s.m_trackOnlyActive = true →
        activePoints =
          if 0 ≤ s.m_currentActivePoint ∧
              filter[s.m_currentActivePoint.toNat]? = some InterestPointStatus.Valid then
            [s.m_currentActivePoint.toNat]
          else []) := by
  have hgt : (pos.length : Int) > s.m_currentActivePoint := hact
  cases hm : s.m_trackOnlyActive with
  | false =>
    refine ⟨(splitActivePointsFrom 0 pos filter).1, (splitActivePointsFrom 0 pos filter).2,
      ?_, splitActivePointsFrom_length pos filter 0, ?_,
      splitActivePointsFrom_sorted pos filter 0 hlen, ?_, ?_, ?_⟩
    · simp [splitActivePoints, hlen, hm]
      rw [← hlen]
      exact hgt
    · intro k id hk
      have := splitActivePointsFrom_getElem? pos filter 0 k id hlen hk
      simpa using this.2
    · intro i hi
      have := (splitActivePointsFrom_mem pos filter 0 i hlen).1 hi
      simpa using this.2
    · intro _ i hi
      exact (splitActivePointsFrom_mem pos filter 0 i hlen).2 ⟨Nat.zero_le _, by simpa using hi⟩
    · intro h
      cases h
  | true =>
    by_cases h0 : 0 ≤ s.m_currentActivePoint
    · have hn : s.m_currentActivePoint.toNat < pos.length := by omega
      have hnf : s.m_currentActivePoint.toNat < filter.length := by omega
      have hp : pos[s.m_currentActivePoint.toNat]? = some pos[s.m_currentActivePoint.toNat] :=
        List.getElem?_eq_getElem hn
      have hf : filter[s.m_currentActivePoint.toNat]? =
          some filter[s.m_currentActivePoint.toNat] := List.getElem?_eq_getElem hnf
      by_cases hv : filter[s.m_currentActivePoint.toNat] = InterestPointStatus.Valid
      · refine ⟨[pos[s.m_currentActivePoint.toNat]], [s.m_currentActivePoint.toNat],
          ?_, rfl, ?_, by simp, ?_, ?_, ?_⟩
        · simp only [splitActivePoints, hm, hp, hf]
          simp [hlen, h0, hv]
          rw [← hlen]
          exact hgt
        · intro k id hk
          cases k with
          | zero =>
            simp at hk
            subst hk
            exact ⟨hn, by simp [hp]⟩
          | succ k => simp at hk
        · intro i hi
          simp at hi
          subst hi
          rw [hf, hv]
        · intro h
          cases h
        · intro _
          simp [h0, hf, hv]
      · refine ⟨[], [], ?_, rfl, ?_, by simp, ?_, ?_, ?_⟩
        · simp only [splitActivePoints, hm, hp, hf]
          simp [hlen, h0, hv]
          rw [← hlen]
          exact hgt
        · intro k id hk
          simp at hk
        · intro i hi
          simp at hi
        · intro h
          cases h
        · intro _
          simp [h0, hf, hv]
    · refine ⟨[], [], ?_, rfl, ?_, by simp, ?_, ?_, ?_⟩
      · simp [splitActivePoints, hm, hlen, h0]
        rw [← hlen]
        exact hgt
      · intro k id hk
        simp at hk
      · intro i hi
        simp at hi
      · intro h
        cases h
      · intro _
        simp [h0]

/-- C2: for positions and statuses of equal length and an active id below that
length (so also -1), `splitActivePoints` returns eligible positions and ids of
equal length with `tempPos[k] = pos[activePoints[k]]`.  When not only the
active point is tracked the ids are exactly those whose status is `Valid`,
each once, strictly ascending; otherwise the ids are the active id alone if it
is non-negative and its status is `Valid`, and nothing else. -/
theorem splitActivePoints_eligible (s : LucasKanadeTracker) (pos : List Point2f)
    (filter : List InterestPointStatus) (hlen : pos.length = filter.length)
    (hact : s.m_currentActivePoint < (pos.length : Int)) :
    ∃ tempPos activePoints, splitActivePoints s pos filter = some (tempPos, activePoints) ∧
      tempPos.length = activePoints.length ∧
      (∀ (k id : Nat), activePoints[k]? = some id →
        id < pos.length ∧ tempPos[k]? = pos[id]?) ∧
      (s.m_trackOnlyActive = false →
        activePoints.Pairwise (fun a b => a < b) ∧
        ∀ i : Nat, i ∈ activePoints ↔ filter[i]? = some InterestPointStatus.Valid) ∧
      (s.m_trackOnlyActive = true →
        activePoints =
          if 0 ≤ s.m_currentActivePoint ∧
              filter[s.m_currentActivePoint.toNat]? = some InterestPointStatus.Valid then
            [s.m_currentActivePoint.toNat]
          else []) := by
  obtain ⟨tempPos, activePoints, h1, h2, h3, h4, h5, h6, h7⟩ :=
    splitActivePoints_char s pos filter hlen hact
  exact ⟨tempPos, activePoints, h1, h2, h3,
    fun hm => ⟨h4, fun i => ⟨h5 i, h6 hm i⟩⟩, h7⟩

/-! ## Lemmas on `joinActivePoints` -/

theorem joinActivePointsLoop_char :
    ∀ (ids : List Nat) (ts : List Point2f) (sts : List Nat) (pos : List Point2f)
      (rs : List Nat),
      ids.length ≤ ts.length → ids.length ≤ sts.length → pos.length = rs.length →
      (∀ id : Nat, id ∈ ids → id < pos.length) →
      ∃ pos' rs', joinActivePointsLoop ids ts sts pos rs = some (pos', rs') ∧
        pos'.length = pos.length ∧ rs'.length = rs.length ∧
        (∀ i : Nat, i ∉ ids → pos'[i]? = pos[i]? ∧ rs'[i]? = rs[i]?) ∧
        (ids.Nodup → ∀ (k id : Nat), ids[k]? = some id →
          pos'[id]? = ts[k]? ∧ rs'[id]? = sts[k]?)
  | [], ts, sts, pos, rs, _, _, _, _ => by
    refine ⟨pos, rs, by simp [joinActivePointsLoop], rfl, rfl, ?_, ?_⟩
    · intro i _
      exact ⟨rfl, rfl⟩
    · intro _ k id hk
      simp at hk
  | id :: ids, [], _, _, _, h, _, _, _ => by simp at h
  | id :: ids, _ :: _, [], _, _, _, h, _, _ => by simp at h
  | id :: ids, t :: ts, st :: sts, pos, rs, h1, h2, h3, h4 => by
    have hid : id < pos.length := h4 id (by simp)
    have hid' : id < rs.length := by omega
    obtain ⟨pos', rs', e, l1, l2, hout, hin⟩ :=
      joinActivePointsLoop_char ids ts sts (pos.set id t) (rs.set id st)
        (by simpa using h1) (by simpa using h2) (by simp [h3])
        (fun j hj => by simpa using h4 j (by simp [hj]))
    refine ⟨pos', rs', ?_, by simpa using l1, by simpa using l2, ?_, ?_⟩
    · simp [joinActivePointsLoop, hid, hid', e]
    · intro i hi
      have hne : id ≠ i := fun h => hi (by simp [h])
      have hni : i ∉ ids := fun h => hi (by simp [h])
      obtain ⟨a, b⟩ := hout i hni
      rw [a, b, List.getElem?_set_ne hne, List.getElem?_set_ne hne]
      exact ⟨rfl, rfl⟩
    · intro hnd k id' hk
      have hnd' := List.nodup_cons.1 hnd
      cases k with
      | zero =>
        simp at hk
        subst hk
        obtain ⟨a, b⟩ := hout id hnd'.1
        rw [a, b, List.getElem?_set_self hid, List.getElem?_set_self hid']
        simp
      | succ k =>
        simp only [List.getElem?_cons_succ] at hk ⊢
        exact hin hnd'.2 k id' hk

theorem joinActivePoints_char (pos tempPos : List Point2f) (activePoints : List Nat)
    (status : List Nat) (hm : tempPos.length = activePoints.length)
    (hs : status.length = activePoints.length)
    (hlt : ∀ id : Nat, id ∈ activePoints → id < pos.length) (hnd : activePoints.Nodup) :
    ∃ pos' realStatus,
      joinActivePoints pos tempPos activePoints status = some (pos', realStatus) ∧
      pos'.length = pos.length ∧ realStatus.length = pos.length ∧
      (∀ (k id : Nat), activePoints[k]? = some id →
        pos'[id]? = tempPos[k]? ∧ realStatus[id]? = status[k]?) ∧
      (∀ i : Nat, i < pos.length → i ∉ activePoints →
        pos'[i]? = pos[i]? ∧ realStatus[i]? = some 1) := by
  have hle : activePoints.length ≤ pos.length := by
    have hsub : activePoints ⊆ List.range pos.length := by
      intro a ha
      exact List.mem_range.2 (hlt a ha)
    have := (List.subperm_of_subset hnd hsub).length_le
    simpa using this
  obtain ⟨pos', rs', e, l1, l2, hout, hin⟩ :=
    joinActivePointsLoop_char activePoints tempPos status pos (List.replicate pos.length 1)
      (by omega) (by omega) (by simp) hlt
  refine ⟨pos', rs', ?_, l1, by simpa using l2, hin hnd, ?_⟩
  · have c : tempPos.length = status.length ∧ pos.length ≥ tempPos.length := by
      constructor <;> omega
    rw [joinActivePoints, if_pos c]
    exact e
  · intro i hi hni
    obtain ⟨a, b⟩ := hout i hni
    refine ⟨a, ?_⟩
    rw [b]
    exact List.getElem?_replicate_of_lt hi

/-- C3: for a full position list of length `n`, `m` pairwise distinct eligible
ids below `n` and eligible positions and flow flags of length `m`,
`joinActivePoints` returns full positions and a success list, both of length
`n`, such that the entry at `activePoints[k]` is `tempPos[k]` with flag
`status[k]`, while an id that is not eligible keeps its position and has the
success flag `1`. -/
theorem joinActivePoints_scatter (pos tempPos : List Point2f) (activePoints : List Nat)
    (status : List Nat) (hm : tempPos.length = activePoints.length)
    (hs : status.length = activePoints.length)
    (hlt : ∀ id : Nat, id ∈ activePoints → id < pos.length) (hnd : activePoints.Nodup) :
    ∃ pos' realStatus,
      joinActivePoints pos tempPos activePoints status = some (pos', realStatus) ∧
      pos'.length = pos.length ∧ realStatus.length = pos.length ∧
      (∀ k : Nat, k < activePoints.length →
        ∃ id t st, activePoints[k]? = some id ∧ tempPos[k]? = some t ∧ status[k]? = some st ∧
          pos'[id]? = some t ∧ realStatus[id]? = some st) ∧
      (∀ i : Nat, i < pos.length → i ∉ activePoints →
        pos'[i]? = pos[i]? ∧ realStatus[i]? = some 1) := by
  obtain ⟨pos', rs, e, l1, l2, hin, hout⟩ :=
    joinActivePoints_char pos tempPos activePoints status hm hs hlt hnd
  refine ⟨pos', rs, e, l1, l2, ?_, hout⟩
  intro k hk
  have hk1 : k < tempPos.length := by omega
  have hk2 : k < status.length := by omega
  obtain ⟨a, b⟩ := hin k activePoints[k] (List.getElem?_eq_getElem hk)
  refine ⟨activePoints[k], tempPos[k], status[k], List.getElem?_eq_getElem hk,
    List.getElem?_eq_getElem hk1, List.getElem?_eq_getElem hk2, ?_, ?_⟩
  · rw [a]
    exact List.getElem?_eq_getElem hk1
  · rw [b]
    exact List.getElem?_eq_getElem hk2

theorem pairwise_lt_nodup {l : List Nat} (h : l.Pairwise (fun a b => a < b)) : l.Nodup :=
  List.Pairwise.imp (fun hab => Nat.ne_of_lt hab) h

theorem split_join_char (s : LucasKanadeTracker) (pos : List Point2f)
    (filter : List InterestPointStatus) (hlen : pos.length = filter.length)
    (hact : s.m_currentActivePoint < (pos.length : Int)) :
    ∃ tempPos activePoints, splitActivePoints s pos filter = some (tempPos, activePoints) ∧
      joinActivePoints pos tempPos activePoints (List.replicate tempPos.length 1) =
        some (pos, List.replicate pos.length 1) := by
  obtain ⟨tempPos, ids, e, hl, hidx, hsorted, -, -, -⟩ :=
    splitActivePoints_char s pos filter hlen hact
  have hlt : ∀ id : Nat, id ∈ ids → id < pos.length := by
    intro id hid
    obtain ⟨k, hk⟩ := List.mem_iff_getElem?.1 hid
    exact (hidx k id hk).1
  obtain ⟨pos', rs, ej, l1, l2, hin, hout⟩ :=
    joinActivePoints_char pos tempPos ids (List.replicate tempPos.length 1) hl
      (by simp [hl]) hlt (pairwise_lt_nodup hsorted)
  refine ⟨tempPos, ids, e, ?_⟩
  have hp : pos' = pos := by
    apply List.ext_getElem?
    intro i
    by_cases hi : i ∈ ids
    · obtain ⟨k, hk⟩ := List.mem_iff_getElem?.1 hi
      rw [(hin k i hk).1, (hidx k i hk).2]
    · by_cases hb : i < pos.length
      · exact (hout i hb hi).1
      · rw [List.getElem?_eq_none (by omega), List.getElem?_eq_none (by omega)]
  have hr : rs = List.replicate pos.length 1 := by
    apply List.ext_getElem?
    intro i
    by_cases hb : i < pos.length
    · rw [List.getElem?_replicate_of_lt hb]
      by_cases hi : i ∈ ids
      · obtain ⟨k, hk⟩ := List.mem_iff_getElem?.1 hi
        have hk' : k < tempPos.length := by
          have := (List.getElem?_eq_some.1 hk).1
          omega
        rw [(hin k i hk).2, List.getElem?_replicate_of_lt hk']
      · exact (hout i hb hi).2
    · rw [List.getElem?_eq_none (by omega), List.getElem?_eq_none (by simp; omega)]
  rw [ej, hp, hr]

/-- C4: round trip.  For positions and statuses of equal length, either mode
and an active id in range, joining the result of `splitActivePoints` back into
the same positions, with the eligible positions unchanged and an all-true
success list, leaves every position as it was and returns an all-true success
list of the full length. -/
theorem split_join_round_trip (s : LucasKanadeTracker) (pos : List Point2f)
    (filter : List InterestPointStatus) (hlen : pos.length = filter.length)
    (hact : s.m_currentActivePoint < (pos.length : Int)) :
    ∃ tempPos activePoints, splitActivePoints s pos filter = some (tempPos, activePoints) ∧
      ∃ pos' realStatus,
        joinActivePoints pos tempPos activePoints (List.replicate tempPos.length 1) =
          some (pos', realStatus) ∧
        pos' = pos ∧ realStatus.length = pos.length ∧ ∀ b : Nat, b ∈ realStatus → b = 1 := by
  obtain ⟨tempPos, ids, e, ej⟩ := split_join_char s pos filter hlen hact
  refine ⟨tempPos, ids, e, pos, List.replicate pos.length 1, ej, rfl, by simp, ?_⟩
  intro b hb
  exact (List.mem_replicate.1 hb).2

/-! ## Lemmas on `updateCurrentPoints` -/

theorem lookup_cons_of_ne {g k : Nat} (h : g ≠ k) (r : InterestPoint)
    (l : List (Nat × InterestPoint)) : List.lookup g ((k, r) :: l) = List.lookup g l := by
  have e : (g == k) = false := by simpa using h
  rw [List.lookup_cons, e]

theorem TrackedObject.get_add (o : TrackedObject) (frame g : Nat) (p : InterestPoint) :
    (o.add frame p).get g = if g = frame then some p else o.get g := by
  by_cases h : g = frame
  · subst h
    simp [TrackedObject.add, TrackedObject.get]
  · simp only [TrackedObject.add, TrackedObject.get, h, if_false]
    exact lookup_cons_of_ne h p _

theorem TrackedObject.lookup_modifyRecord (frame g : Nat) (f : InterestPoint → InterestPoint) :
    ∀ l : List (Nat × InterestPoint),
      (TrackedObject.modifyRecord frame f l).lookup g =
        if g = frame then (l.lookup frame).map f else l.lookup g
  | [] => by simp [TrackedObject.modifyRecord]
  | (k, r) :: rest => by
    have ih := TrackedObject.lookup_modifyRecord frame g f rest
    by_cases hk : k = frame
    · subst hk
      by_cases hg : g = k
      · subst hg
        simp [TrackedObject.modifyRecord]
      · simp only [TrackedObject.modifyRecord, if_true, hg, if_false]
        rw [lookup_cons_of_ne hg, lookup_cons_of_ne hg]
    · have hfk : frame ≠ k := fun h => hk h.symm
      simp only [TrackedObject.modifyRecord, hk, if_false]
      rw [lookup_cons_of_ne hfk]
      by_cases hgk : g = k
      · subst hgk
        have hgf : ¬ g = frame := hk
        simp [hgf]
      · rw [lookup_cons_of_ne hgk, lookup_cons_of_ne hgk]
        exact ih

theorem TrackedObject.get_modify (o : TrackedObject) (frame g : Nat)
    (f : InterestPoint → InterestPoint) :
    (o.modify frame f).get g = if g = frame then (o.get frame).map f else o.get g := by
  simp only [TrackedObject.modify, TrackedObject.get]
  exact TrackedObject.lookup_modifyRecord frame g f o.m_objectsByFrame

theorem updateCurrentPointsEntry_written (frameNbr : Nat) (o : TrackedObject) (p : Point2f)
    (st : Nat) (f : InterestPointStatus)
    (hf : f = InterestPointStatus.Valid ∨ f = InterestPointStatus.Not_Tracked) :
    (updateCurrentPointsEntry frameNbr o p st f).1 =
      o.add frameNbr
        { m_status := if st ≠ 0 then f else InterestPointStatus.Invalid
          m_position := p
          m_userStatus := 0
          m_isDummy := false } := by
  by_cases hs : st = 0 <;>
    simp [updateCurrentPointsEntry, hf, hs, InterestPoint.new, InterestPoint.setStatus,
      InterestPoint.setPosition]

theorem updateCurrentPointsEntry_skipped (frameNbr : Nat) (o : TrackedObject) (p : Point2f)
    (st : Nat) (f : InterestPointStatus)
    (hf : ¬ (f = InterestPointStatus.Valid ∨ f = InterestPointStatus.Not_Tracked)) :
    (updateCurrentPointsEntry frameNbr o p st f).1 = o := by
  simp [updateCurrentPointsEntry, hf]

theorem updateCurrentPointsLoop_char (frameNbr : Nat) :
    ∀ (os : List TrackedObject) (ps : List Point2f) (sts : List Nat)
      (fs : List InterestPointStatus),
      ps.length = os.length → sts.length = os.length → fs.length = os.length →
      (updateCurrentPointsLoop frameNbr os ps sts fs).1.length = os.length ∧
      ∀ (i : Nat) (o : TrackedObject) (p : Point2f) (st : Nat) (f : InterestPointStatus),
        os[i]? = some o → ps[i]? = some p → sts[i]? = some st → fs[i]? = some f →
        (updateCurrentPointsLoop frameNbr os ps sts fs).1[i]? =
          some (updateCurrentPointsEntry frameNbr o p st f).1
  | [], _, _, _, _, _, _ => by simp [updateCurrentPointsLoop]
  | _ :: _, [], _, _, h, _, _ => by simp at h
  | _ :: _, _ :: _, [], _, _, h, _ => by simp at h
  | _ :: _, _ :: _, _ :: _, [], _, _, h => by simp at h
  | o' :: os, p' :: ps, st' :: sts, f' :: fs, h1, h2, h3 => by
    obtain ⟨il, ig⟩ := updateCurrentPointsLoop_char frameNbr os ps sts fs
      (by simpa using h1) (by simpa using h2) (by simpa using h3)
    refine ⟨by simp [updateCurrentPointsLoop, il], ?_⟩
    intro i o p st f ho hp hst hf
    cases i with
    | zero =>
      simp at ho hp hst hf
      subst ho hp hst hf
      simp [updateCurrentPointsLoop]
    | succ i =>
      simp only [List.getElem?_cons_succ] at ho hp hst hf
      simpa [updateCurrentPointsLoop] using ig i o p st f ho hp hst hf

theorem updateCurrentPoints_char (s : LucasKanadeTracker) (frameNbr : Nat)
    (positions : List Point2f) (status : List Nat) (filter : List InterestPointStatus)
    (h1 : positions.length = s.m_trackedObjects.length)
    (h2 : status.length = s.m_trackedObjects.length)
    (h3 : filter.length = s.m_trackedObjects.length) :
    ∃ s', updateCurrentPoints s frameNbr positions status filter = some s' ∧
      s'.m_trackedObjects.length = s.m_trackedObjects.length ∧
      s'.m_currentActivePoint = s.m_currentActivePoint ∧
      s'.m_trackOnlyActive = s.m_trackOnlyActive ∧
      s'.m_currentFrame = s.m_currentFrame ∧
      ∀ (i : Nat) (o : TrackedObject) (p : Point2f) (st : Nat) (f : InterestPointStatus),
        s.m_trackedObjects[i]? = some o → positions[i]? = some p → status[i]? = some st →
        filter[i]? = some f →
        s'.m_trackedObjects[i]? = some (updateCurrentPointsEntry frameNbr o p st f).1 := by
  obtain ⟨il, ig⟩ := updateCurrentPointsLoop_char frameNbr s.m_trackedObjects positions
    status filter h1 h2 h3
  have c : positions.length = s.m_trackedObjects.length ∧ positions.length = status.length ∧
      filter.length = positions.length := by
    refine ⟨h1, ?_, ?_⟩ <;> omega
  rw [updateCurrentPoints, if_pos c]
  exact ⟨_, rfl, il, rfl, rfl, rfl, ig⟩

/-- C5: for a store of `n` trajectories and positions, success flags and
projected statuses of length `n`, `updateCurrentPoints` leaves for every id
whose projected status is `Valid` or `Not_Tracked` a record at exactly the
frame, with the position `positions[i]` and with the projected status when the
flag is set and `Invalid` when it is not. -/
theorem updateCurrentPoints_records (s : LucasKanadeTracker) (frameNbr : Nat)
    (positions : List Point2f) (status : List Nat) (filter : List InterestPointStatus)
    (h1 : positions.length = s.m_trackedObjects.length)
    (h2 : status.length = s.m_trackedObjects.length)
    (h3 : filter.length = s.m_trackedObjects.length) :
    ∃ s', updateCurrentPoints s frameNbr positions status filter = some s' ∧
      s'.m_trackedObjects.length = s.m_trackedObjects.length ∧
      ∀ (i : Nat) (p : Point2f) (st : Nat) (f : InterestPointStatus),
        positions[i]? = some p → status[i]? = some st → filter[i]? = some f →
        (f = InterestPointStatus.Valid ∨ f = InterestPointStatus.Not_Tracked) →
        ∃ o' r, s'.m_trackedObjects[i]? = some o' ∧ o'.get frameNbr = some r ∧
          r.m_position = p ∧
          r.m_status = if st ≠ 0 then f else InterestPointStatus.Invalid := by
  obtain ⟨s', e, hl, -, -, -, hg⟩ :=
    updateCurrentPoints_char s frameNbr positions status filter h1 h2 h3
  refine ⟨s', e, hl, ?_⟩
  intro i p st f hp hst hf hv
  have hi : i < s.m_trackedObjects.length := by
    have := (List.getElem?_eq_some.1 hp).1
    omega
  have ho := hg i s.m_trackedObjects[i] p st f (List.getElem?_eq_getElem hi) hp hst hf
  rw [updateCurrentPointsEntry_written frameNbr _ p st f hv] at ho
  refine ⟨_, (⟨if st ≠ 0 then f else InterestPointStatus.Invalid, p, 0, false⟩ :
    InterestPoint), ho, ?_, rfl, rfl⟩
  rw [TrackedObject.get_add]
  simp

/-! ## Witnesses for C2 to C5 -/

/-- Witness of C2 on the positions of `A` and `B`, both `Valid`. -/
theorem splitActivePoints_eligible_witness :
    positionsAB.length = [InterestPointStatus.Valid, InterestPointStatus.Valid].length ∧
    trackerAB.m_currentActivePoint < (positionsAB.length : Int) ∧
    ∃ tempPos activePoints,
      splitActivePoints trackerAB positionsAB
        [InterestPointStatus.Valid, InterestPointStatus.Valid] = some (tempPos, activePoints) ∧
      tempPos.length = activePoints.length :=
  ⟨by decide, by decide,
    (splitActivePoints_eligible trackerAB positionsAB
      [InterestPointStatus.Valid, InterestPointStatus.Valid] (by decide) (by decide)).imp
      fun _ h => h.imp fun _ h' => ⟨h'.1, h'.2.1⟩⟩

/-- Witness of C3: only `B` was submitted to the flow engine. -/
theorem joinActivePoints_scatter_witness :
    ([⟨70, 80⟩] : List Point2f).length = [1].length ∧
    ∃ pos' realStatus,
      joinActivePoints positionsAB [⟨70, 80⟩] [1] [0] = some (pos', realStatus) ∧
      pos'.length = positionsAB.length :=
  ⟨by decide,
    (joinActivePoints_scatter positionsAB [⟨70, 80⟩] [1] [0] (by decide) (by decide)
      (by decide) (by decide)).imp
      fun _ h => h.imp fun _ h' => ⟨h'.1, h'.2.1⟩⟩

/-- Witness of C4 on the positions of `A` and `B`, `A` being `Invalid`. -/
theorem split_join_round_trip_witness :
    positionsAB.length = [InterestPointStatus.Invalid, InterestPointStatus.Valid].length ∧
    ∃ tempPos activePoints,
      splitActivePoints trackerAB positionsAB
        [InterestPointStatus.Invalid, InterestPointStatus.Valid] =
          some (tempPos, activePoints) ∧
      joinActivePoints positionsAB tempPos activePoints (List.replicate tempPos.length 1) =
        some (positionsAB, [1, 1]) :=
  ⟨by decide,
    by
      obtain ⟨tempPos, ids, e, pos', rs, ej, hp, hl, hall⟩ :=
        split_join_round_trip trackerAB positionsAB
          [InterestPointStatus.Invalid, InterestPointStatus.Valid] (by decide) (by decide)
      refine ⟨tempPos, ids, e, ?_⟩
      rw [ej, hp]
      have h2 : rs.length = 2 := hl
      match rs, h2, hall with
      | [a, b], _, hall =>
        rw [hall a (by simp), hall b (by simp)]⟩

/-- Witness of C5: the positions of frame 1 are written for `A` (flow failed)
and `B` (flow succeeded). -/
theorem updateCurrentPoints_records_witness :
    ([⟨12, 11⟩, ⟨70, 80⟩] : List Point2f).length = trackerAB.m_trackedObjects.length ∧
    ∃ s', updateCurrentPoints trackerAB 1 [⟨12, 11⟩, ⟨70, 80⟩] [0, 1]
        [InterestPointStatus.Valid, InterestPointStatus.Not_Tracked] = some s' ∧
      s'.m_trackedObjects.length = trackerAB.m_trackedObjects.length :=
  ⟨by decide,
    (updateCurrentPoints_records trackerAB 1 [⟨12, 11⟩, ⟨70, 80⟩] [0, 1]
      [InterestPointStatus.Valid, InterestPointStatus.Not_Tracked] (by decide) (by decide)
      (by decide)).imp fun _ h => ⟨h.1, h.2.1⟩⟩

/-! ## Lemmas on `updateUserStates` and `track` -/

theorem TrackedObject.view_eq_some {o : TrackedObject} {g : Nat} {st : InterestPointStatus}
    {p : Point2f} (h : o.view g = some (st, p)) :
    ∃ r, o.get g = some r ∧ r.m_status = st ∧ r.m_position = p := by
  unfold TrackedObject.view at h
  cases hg : o.get g with
  | none => simp [hg] at h
  | some r =>
    simp [hg] at h
    exact ⟨r, rfl, h.1, h.2⟩

theorem TrackedObject.view_of_get {o : TrackedObject} {g : Nat} {r : InterestPoint}
    (h : o.get g = some r) : o.view g = some (r.m_status, r.m_position) := by
  simp [TrackedObject.view, h]

theorem updateUserStatesLoop_fields :
    ∀ (bs : List Bool) (i : Nat) (traj : InterestPoint),
      (updateUserStatesLoop i bs traj).m_status = traj.m_status ∧
      (updateUserStatesLoop i bs traj).m_position = traj.m_position
  | [], _, _ => by simp [updateUserStatesLoop]
  | b :: bs, i, traj => by
    have ih := updateUserStatesLoop_fields bs (i + 1)
      (if b then traj.addToUserStatus i else traj.removeFromUserStatus i)
    cases b <;>
      simpa [updateUserStatesLoop, InterestPoint.addToUserStatus,
        InterestPoint.removeFromUserStatus] using ih

theorem TrackedObject.view_modify_userStates (o : TrackedObject) (frame g : Nat)
    (bs : List Bool) :
    (o.modify frame (updateUserStatesLoop 0 bs)).view g = o.view g := by
  unfold TrackedObject.view
  rw [TrackedObject.get_modify]
  by_cases h : g = frame
  · subst h
    simp only [if_true, Option.map_map]
    cases o.get g with
    | none => rfl
    | some r =>
      simp [(updateUserStatesLoop_fields bs 0 r).1, (updateUserStatesLoop_fields bs 0 r).2]
  · simp [h]

theorem updateUserStates_char (s : LucasKanadeTracker) (cf : Nat)
    (hact : s.m_currentActivePoint < (s.m_trackedObjects.length : Int))
    (hcf : s.m_currentFrame = cf) :
    ∃ s', updateUserStates s cf = some s' ∧
      s'.m_trackedObjects.length = s.m_trackedObjects.length ∧
      ∀ (i : Nat) (o : TrackedObject), s.m_trackedObjects[i]? = some o →
        ∃ o', s'.m_trackedObjects[i]? = some o' ∧ ∀ g : Nat, o'.view g = o.view g := by
  by_cases h0 : s.m_currentActivePoint ≥ 0
  · have ha : s.m_currentActivePoint.toNat < s.m_trackedObjects.length := by omega
    have hoa := List.getElem?_eq_getElem ha
    cases hv : (s.m_trackedObjects[s.m_currentActivePoint.toNat]).hasValuesAtFrame
        s.m_currentFrame with
    | false =>
      refine ⟨s, ?_, rfl, fun i o ho => ⟨o, ho, fun _ => rfl⟩⟩
      simp [updateUserStates, h0, hoa, hv]
    | true =>
      have hsome : ((s.m_trackedObjects[s.m_currentActivePoint.toNat]).get cf).isSome = true := by
        rw [← hcf]
        exact hv
      obtain ⟨r, hr⟩ := Option.isSome_iff_exists.1 hsome
      refine ⟨{ s with
        m_trackedObjects :=
          s.m_trackedObjects.set s.m_currentActivePoint.toNat
            ((s.m_trackedObjects[s.m_currentActivePoint.toNat]).modify cf
              (updateUserStatesLoop 0 s.m_setUserStates)) }, ?_, by simp, ?_⟩
      · simp [updateUserStates, h0, hoa, hv, hr]
      · intro i o ho
        by_cases hi : s.m_currentActivePoint.toNat = i
        · subst hi
          rw [hoa] at ho
          cases ho
          refine ⟨_, List.getElem?_set_self ha, ?_⟩
          intro g
          exact TrackedObject.view_modify_userStates _ cf g _
        · refine ⟨o, ?_, fun _ => rfl⟩
          simp only [List.getElem?_set_ne hi]
          exact ho
  · refine ⟨s, ?_, rfl, fun i o ho => ⟨o, ho, fun _ => rfl⟩⟩
    simp [updateUserStates, h0]

theorem getCurrentPointsFrom_currentFrame (s : LucasKanadeTracker) (frame frameNbr : Nat) :
    ∀ (os : List TrackedObject) (j : Nat),
      getCurrentPointsFrom { s with m_currentFrame := frame } frameNbr j os =
        getCurrentPointsFrom s frameNbr j os
  | [], _ => rfl
  | o :: os, j => by
    have ih := getCurrentPointsFrom_currentFrame s frame frameNbr os (j + 1)
    simp only [getCurrentPointsFrom, ih]
    rfl

theorem getCurrentPoints_currentFrame (s : LucasKanadeTracker) (frame frameNbr : Nat) :
    getCurrentPoints { s with m_currentFrame := frame } frameNbr =
      getCurrentPoints s frameNbr :=
  getCurrentPointsFrom_currentFrame s frame frameNbr s.m_trackedObjects 0

theorem splitActivePoints_currentFrame (s : LucasKanadeTracker) (frame : Nat)
    (pos : List Point2f) (filter : List InterestPointStatus) :
    splitActivePoints { s with m_currentFrame := frame } pos filter =
      splitActivePoints s pos filter := rfl

theorem TrackedObject.view_add (o : TrackedObject) (frame g : Nat) (r : InterestPoint) :
    (o.add frame r).view g =
      if g = frame then some (r.m_status, r.m_position) else o.view g := by
  unfold TrackedObject.view
  rw [TrackedObject.get_add]
  by_cases h : g = frame <;> simp [h]

theorem track_records (s : LucasKanadeTracker) (frame : Nat) (cols rows : Int)
    (flow : List Point2f → List Point2f × List Nat)
    (hact : s.m_currentActivePoint < (s.m_trackedObjects.length : Int))
    (hflow : ∀ ps : List Point2f,
      (flow ps).1.length = ps.length ∧ (flow ps).2.length = ps.length) :
    ∃ tp ids,
      splitActivePoints s (getCurrentPoints s (prevFrame frame)).1
        (getCurrentPoints s (prevFrame frame)).2.1 = some (tp, ids) ∧
      (tp = [] → track s frame cols rows flow = some { s with m_currentFrame := frame }) ∧
      (tp ≠ [] → ∃ pos' rs s',
        joinActivePoints (getCurrentPoints s (prevFrame frame)).1 (flow tp).1 ids (flow tp).2 =
          some (pos', rs) ∧
        track s frame cols rows flow = some s' ∧
        s'.m_trackedObjects.length = s.m_trackedObjects.length ∧
        ∀ (i : Nat) (o : TrackedObject), s.m_trackedObjects[i]? = some o →
          ∃ o' f p st, s'.m_trackedObjects[i]? = some o' ∧
            (getCurrentPoints s (prevFrame frame)).2.1[i]? = some f ∧
            pos'[i]? = some p ∧ rs[i]? = some st ∧
            ((f = InterestPointStatus.Valid ∨ f = InterestPointStatus.Not_Tracked) →
              ∀ g : Nat, o'.view g =
                if g = frame then
                  some (if st ≠ 0 then f else InterestPointStatus.Invalid, p)
                else o.view g) ∧
            (¬ (f = InterestPointStatus.Valid ∨ f = InterestPointStatus.Not_Tracked) →
              ∀ g : Nat, o'.view g = o.view g)) := by
  have hl := getCurrentPointsFrom_length s (prevFrame frame) s.m_trackedObjects 0
  have hl1 : (getCurrentPoints s (prevFrame frame)).1.length = s.m_trackedObjects.length := hl.1
  have hl2 : (getCurrentPoints s (prevFrame frame)).2.1.length = s.m_trackedObjects.length :=
    hl.2.1
  obtain ⟨tp, ids, e, hlen, hidx, hsorted, -, -, -⟩ :=
    splitActivePoints_char s (getCurrentPoints s (prevFrame frame)).1
      (getCurrentPoints s (prevFrame frame)).2.1 (by omega) (by omega)
  refine ⟨tp, ids, e, ?_, ?_⟩
  · intro htp
    simp only [track, getCurrentPoints_currentFrame, splitActivePoints_currentFrame, e]
    simp [htp]
  · intro htp
    have hlt : ∀ id : Nat, id ∈ ids →
        id < (getCurrentPoints s (prevFrame frame)).1.length := by
      intro id hid
      obtain ⟨k, hk⟩ := List.mem_iff_getElem?.1 hid
      exact (hidx k id hk).1
    obtain ⟨pos', rs, ej, l1, l2, -, -⟩ :=
      joinActivePoints_char (getCurrentPoints s (prevFrame frame)).1 (flow tp).1 ids (flow tp).2
        (by rw [(hflow tp).1]; exact hlen) (by rw [(hflow tp).2]; exact hlen) hlt
        (pairwise_lt_nodup hsorted)
    obtain ⟨s1, e1, hs1l, hs1a, -, hs1f, hs1g⟩ :=
      updateCurrentPoints_char { s with m_currentFrame := frame } frame pos' rs
        (getCurrentPoints s (prevFrame frame)).2.1
        (by simpa using l1.trans hl1) (by simpa using l2.trans hl1) (by simpa using hl2)
    obtain ⟨s2, e2, hs2l, hs2g⟩ := updateUserStates_char s1 frame
      (by rw [hs1a, hs1l]; exact hact) hs1f
    refine ⟨pos', rs, s2, ej, ?_, by rw [hs2l, hs1l], ?_⟩
    · simp only [track, getCurrentPoints_currentFrame, splitActivePoints_currentFrame, e]
      simp only [ne_eq, htp, not_false_eq_true, if_true, ej, e1]
      exact e2
    · intro i o ho
      have hi : i < s.m_trackedObjects.length := (List.getElem?_eq_some.1 ho).1
      have hf := List.getElem?_eq_getElem (l := (getCurrentPoints s (prevFrame frame)).2.1)
        (n := i) (by omega)
      have hp := List.getElem?_eq_getElem (l := pos') (n := i) (by omega)
      have hst := List.getElem?_eq_getElem (l := rs) (n := i) (by omega)
      have h1 := hs1g i o _ _ _ ho hp hst hf
      obtain ⟨o2, ho2, hv2⟩ := hs2g i _ h1
      refine ⟨o2, _, _, _, ho2, hf, hp, hst, ?_, ?_⟩
      · intro hv g
        rw [hv2 g, updateCurrentPointsEntry_written frame o _ _ _ hv, TrackedObject.view_add]
      · intro hv g
        rw [hv2 g, updateCurrentPointsEntry_skipped frame o _ _ _ hv]

theorem prevFrame_of_pos (F : Nat) (h1 : 1 ≤ F) (h2 : F < 2 ^ 64) : prevFrame F = F - 1 := by
  unfold prevFrame
  norm_num at h2 ⊢
  omega

/-! ## The tracking pass: C6 to C10 -/

/-- C6 at a failing input: `A` and `B` are created at frame 0, `A` is made the
active point and deleted, and "track only active" is switched on.  `B` is then
projected `Not_Tracked` at frame 0, but `track(1)` submits no point to the flow
engine and skips `updateCurrentPoints` with it, so that `B` has no record at
frame 1, also after the mode is switched off again.  With the active point `A`
`Valid` (`trackerOnlyA`) the same pass carries `B` to frame 1 as
`Not_Tracked`. -/
theorem track_skips_not_tracked :
    run initialTracker
      [Event.tryCreateNewPoint cornerSubPixStill ⟨10, 10⟩,
       Event.tryCreateNewPoint cornerSubPixStill ⟨50, 50⟩,
       Event.activateExistingPoint ⟨10, 10⟩,
       Event.deleteCurrentActivePoint,
       Event.checkboxChanged_activeUser Qt_Checked] = some trackerOnlyDeletedA ∧
    (getCurrentPoints trackerOnlyDeletedA 0).2.1 =
      [InterestPointStatus.Invalid, InterestPointStatus.Not_Tracked] ∧
    (track trackerOnlyDeletedA 1 100 100 flowAB).map
        (fun s' => s'.m_trackedObjects.map (fun o => o.hasValuesAtFrame 1)) =
      some [false, false] ∧
    (run trackerOnlyDeletedA
        [Event.track 1 100 100 flowAB, Event.checkboxChanged_activeUser 0]).map
        (fun s' => (getCurrentPoints s' 1).2.1) =
      some [InterestPointStatus.Non_Existing, InterestPointStatus.Non_Existing] ∧
    (track trackerOnlyA 1 100 100 flowAB).bind (fun s' => recordStatus s' 1 1) =
      some InterestPointStatus.Not_Tracked := by
  decide!

/-- C7, as the source has it: let trajectory `i` have an `Invalid` record at
frame `F`, the active id be -1 or a valid index and the flow results have the
length of their input.  After a pass `track(G)` with `G ≠ F`, or with `G = F`
when the projected status of `i` at the frame before is neither `Valid` nor
`Not_Tracked`, the record of `i` at frame `F` is still `Invalid`. -/
theorem track_keeps_invalid (s : LucasKanadeTracker) (G : Nat) (cols rows : Int)
    (flow : List Point2f → List Point2f × List Nat)
    (hact : s.m_currentActivePoint < (s.m_trackedObjects.length : Int))
    (hflow : ∀ ps : List Point2f,
      (flow ps).1.length = ps.length ∧ (flow ps).2.length = ps.length)
    (i F : Nat) (o : TrackedObject) (r : InterestPoint)
    (ho : s.m_trackedObjects[i]? = some o) (hr : o.get F = some r)
    (hinv : r.m_status = InterestPointStatus.Invalid)
    (hG : G ≠ F ∨ ∃ f, (getCurrentPoints s (prevFrame G)).2.1[i]? = some f ∧
      f ≠ InterestPointStatus.Valid ∧ f ≠ InterestPointStatus.Not_Tracked) :
    ∃ s' o' r', track s G cols rows flow = some s' ∧ s'.m_trackedObjects[i]? = some o' ∧
      o'.get F = some r' ∧ r'.m_status = InterestPointStatus.Invalid := by
  obtain ⟨tp, ids, -, hempty, hfull⟩ := track_records s G cols rows flow hact hflow
  by_cases htp : tp = []
  · exact ⟨_, o, r, hempty htp, ho, hr, hinv⟩
  · obtain ⟨pos', rs, s', -, et, -, hrec⟩ := hfull htp
    obtain ⟨o', f, p, st, ho', hf, -, -, hw, hs⟩ := hrec i o ho
    have hview : o'.view F = o.view F := by
      by_cases hv : f = InterestPointStatus.Valid ∨ f = InterestPointStatus.Not_Tracked
      · rcases hG with hne | ⟨f', hf', h1, h2⟩
        · rw [hw hv F, if_neg (fun h => hne h.symm)]
        · rw [hf] at hf'
          cases hf'
          rcases hv with hv | hv
          · exact absurd hv h1
          · exact absurd hv h2
      · exact hs hv F
    rw [TrackedObject.view_of_get hr] at hview
    obtain ⟨r', hr', hst, -⟩ := TrackedObject.view_eq_some hview
    exact ⟨s', o', r', et, ho', hr', hst.trans hinv⟩

/-- Witness of C7: `B` is `Invalid` at frame 1 and stays so after `track(2)`. -/
theorem track_keeps_invalid_witness :
    recordStatus trackerAfterFrame1 1 1 = some InterestPointStatus.Invalid ∧
    ∃ s' o' r', track trackerAfterFrame1 2 100 100 flowStill = some s' ∧
      s'.m_trackedObjects[1]? = some o' ∧ o'.get 1 = some r' ∧
      r'.m_status = InterestPointStatus.Invalid :=
  ⟨by decide,
    track_keeps_invalid trackerAfterFrame1 2 100 100 flowStill (by decide)
      (fun ps => ⟨rfl, by simp [flowStill]⟩) 1 1
      ⟨1, [(1, (validRecord 70 80).setStatus InterestPointStatus.Invalid),
        (0, validRecord 50 50)]⟩
      ((validRecord 70 80).setStatus InterestPointStatus.Invalid) (by decide) (by decide)
      (by decide) (Or.inl (by decide))⟩

/-- Counterexample to C7: `B` is `Invalid` at frame 1 after a failed flow;
processing frame 1 again, with a flow that succeeds, makes the record of `B`
at frame 1 `Valid`. -/
theorem track_again_revalidates :
    track trackerAB 1 100 100 flowAB = some trackerAfterFrame1 ∧
    recordStatus trackerAfterFrame1 1 1 = some InterestPointStatus.Invalid ∧
    (track trackerAfterFrame1 1 100 100 flowStill).bind (fun s' => recordStatus s' 1 1) =
      some InterestPointStatus.Valid := by
  decide

/-- C8, as the source has it: let the active id be -1 or a valid index and
the flow results have the length of their input.  If trajectory `i` is
submitted to the flow engine in slot `k` and the engine reports failure for it,
the record written for `i` at frame `F` has status `Invalid` and the position
that the engine returned for slot `k`. -/
theorem track_failed_point (s : LucasKanadeTracker) (F : Nat) (cols rows : Int)
    (flow : List Point2f → List Point2f × List Nat)
    (hact : s.m_currentActivePoint < (s.m_trackedObjects.length : Int))
    (hflow : ∀ ps : List Point2f,
      (flow ps).1.length = ps.length ∧ (flow ps).2.length = ps.length)
    (tempPos : List Point2f) (ids : List Nat)
    (hsplit : splitActivePoints s (getCurrentPoints s (prevFrame F)).1
      (getCurrentPoints s (prevFrame F)).2.1 = some (tempPos, ids))
    (k i : Nat) (hk : ids[k]? = some i) (q : Point2f)
    (hq : (flow tempPos).1[k]? = some q) (hfail : (flow tempPos).2[k]? = some 0) :
    ∃ s' o' r, track s F cols rows flow = some s' ∧ s'.m_trackedObjects[i]? = some o' ∧
      o'.get F = some r ∧ r.m_status = InterestPointStatus.Invalid ∧ r.m_position = q := by
  have hl := getCurrentPointsFrom_length s (prevFrame F) s.m_trackedObjects 0
  have hl1 : (getCurrentPoints s (prevFrame F)).1.length = s.m_trackedObjects.length := hl.1
  have hl2 : (getCurrentPoints s (prevFrame F)).2.1.length = s.m_trackedObjects.length :=
    hl.2.1
  obtain ⟨tp', ids', e', hlen, hidx, hsorted, hvalid, -, -⟩ :=
    splitActivePoints_char s (getCurrentPoints s (prevFrame F)).1
      (getCurrentPoints s (prevFrame F)).2.1 (by omega) (by omega)
  rw [hsplit] at e'
  cases e'
  obtain ⟨tp, ids', e, -, hfull⟩ := track_records s F cols rows flow hact hflow
  rw [hsplit] at e
  cases e
  have hkl : k < ids.length := (List.getElem?_eq_some.1 hk).1
  have hne : tempPos ≠ [] := by
    intro h
    rw [h] at hlen
    simp at hlen
    omega
  obtain ⟨pos', rs, s', ej, et, -, hrec⟩ := hfull hne
  have hlt : ∀ id : Nat, id ∈ ids →
      id < (getCurrentPoints s (prevFrame F)).1.length := by
    intro id hid
    obtain ⟨k', hk'⟩ := List.mem_iff_getElem?.1 hid
    exact (hidx k' id hk').1
  obtain ⟨pos'', rs', ej', -, -, hin, -⟩ :=
    joinActivePoints_char (getCurrentPoints s (prevFrame F)).1 (flow tempPos).1 ids
      (flow tempPos).2 (by rw [(hflow tempPos).1]; exact hlen)
      (by rw [(hflow tempPos).2]; exact hlen) hlt (pairwise_lt_nodup hsorted)
  rw [ej] at ej'
  cases ej'
  have hmem : i ∈ ids := List.mem_iff_getElem?.2 ⟨k, hk⟩
  have hi : i < s.m_trackedObjects.length := by
    have := hlt i hmem
    omega
  obtain ⟨o', f, p, st, ho', hf, hp, hst, hw, -⟩ :=
    hrec i s.m_trackedObjects[i] (List.getElem?_eq_getElem hi)
  rw [hvalid i hmem] at hf
  cases hf
  rw [(hin k i hk).1, hq] at hp
  cases hp
  rw [(hin k i hk).2, hfail] at hst
  cases hst
  have hview := hw (Or.inl rfl) F
  rw [if_pos rfl] at hview
  obtain ⟨r, hr, hs, hpos⟩ := TrackedObject.view_eq_some hview
  exact ⟨s', o', r, et, ho', hr, by simpa using hs, hpos⟩

/-- Witness of C8: `B` is submitted in slot 1 and fails at `(70, 80)`. -/
theorem track_failed_point_witness :
    splitActivePoints trackerAB (getCurrentPoints trackerAB (prevFrame 1)).1
      (getCurrentPoints trackerAB (prevFrame 1)).2.1 = some (positionsAB, [0, 1]) ∧
    (flowAB positionsAB).2[1]? = some 0 ∧
    ∃ s' o' r, track trackerAB 1 100 100 flowAB = some s' ∧
      s'.m_trackedObjects[1]? = some o' ∧ o'.get 1 = some r ∧
      r.m_status = InterestPointStatus.Invalid ∧ r.m_position = ⟨70, 80⟩ :=
  ⟨by decide, by decide,
    track_failed_point trackerAB 1 100 100 flowAB (by decide)
      (fun ps => ⟨by simp [flowAB], by simp [flowAB]⟩) positionsAB [0, 1] (by decide)
      1 1 (by decide) ⟨70, 80⟩ (by decide) (by decide)⟩

/-- Counterexample to C8: `B` is projected at `(50, 50)` at frame 0; the flow
engine fails for it and returns `(70, 80)`; the record of `B` at frame 1 is
`Invalid` at `(70, 80)`, not at `(50, 50)`. -/
theorem track_failed_point_moves :
    (getCurrentPoints trackerAB 0).1[1]? = some ⟨50, 50⟩ ∧
    (getCurrentPoints trackerAB 0).2.1[1]? = some InterestPointStatus.Valid ∧
    (track trackerAB 1 100 100 flowAB).bind (fun s' => recordStatus s' 1 1) =
      some InterestPointStatus.Invalid ∧
    (track trackerAB 1 100 100 flowAB).bind (fun s' => recordPosition s' 1 1) =
      some ⟨70, 80⟩ ∧
    (track trackerAB 1 100 100 flowAB).bind (fun s' => recordPosition s' 1 1) ≠
      (getCurrentPoints trackerAB 0).1[1]? := by
  decide

/-- C9 at a failing input: on a `100 x 100` image the flow engine reports `A`
at `(-5, -5)` and `B` at `(170, 80)`, both with success; `track(1)` stores these
positions unclamped, because `clampPosition` is applied to `newPoints` after
they were copied into `currentPoints`. -/
theorem track_stores_unclamped :
    (track trackerAB 1 100 100 flowOutside).bind (fun s' => recordPosition s' 0 1) =
      some ⟨-5, -5⟩ ∧
    (track trackerAB 1 100 100 flowOutside).bind (fun s' => recordPosition s' 1 1) =
      some ⟨170, 80⟩ := by
  decide

/-- C10 at a failing input: on a `10 x 10` image `clampPosition` leaves the
point `(10, 10)` where it is, outside `[0, 9] x [0, 9]`, because the test is
`p.x > w` and not `p.x > w - 1`. -/
theorem clampPosition_keeps_border :
    clampPosition [⟨10, 10⟩] 10 10 = [⟨10, 10⟩] ∧ ¬ ((10 : ℚ) ≤ ((10 - 1 : Int) : ℚ)) := by
  decide

/-! ## User interaction: C11 to C16 -/

/-- C11 at a failing input: the only trajectory has no record at the current
frame 1 (it is projected `Non_Existing` at the sentinel `(-1, -1)`), so no
existing point is within 5 pixels of the click `(2, 2)`; `tryCreateNewPoint`
still rejects the click as too close, because the loop compares the click with
the sentinel as well, and creates no trajectory. -/
theorem tryCreateNewPoint_rejects_near_sentinel :
    (getCurrentPoints trackerSteppedOn trackerSteppedOn.m_currentFrame).2.1 =
      [InterestPointStatus.Non_Existing] ∧
    tryCreateNewPoint trackerSteppedOn cornerSubPixStill ⟨2, 2⟩ =
      { trackerSteppedOn with m_emitted := [Signal.notifyTooClose] } ∧
    (tryCreateNewPoint trackerSteppedOn cornerSubPixStill ⟨2, 2⟩).m_trackedObjects.length =
      trackerSteppedOn.m_trackedObjects.length := by
  decide!

/-- C12, as the source has it: when the distance that the source computes,
`cv::norm(P - pos)` in `float` and `double` arithmetic, is at most 5 for the
position of a trajectory that has a record at the current frame,
`tryCreateNewPoint` emits the "too close" signal and changes nothing else: the
store, and with it the count and every record, the active id and the mode
flags are as before. -/
theorem tryCreateNewPoint_too_close (s : LucasKanadeTracker)
    (cornerSubPix : Point2f → Point2f) (pos : QPoint) (i : Nat) (o : TrackedObject)
    (r : InterestPoint) (ho : s.m_trackedObjects[i]? = some o)
    (hr : o.get s.m_currentFrame = some r)
    (hclose : cvNorm (toCv pos) r.m_position ≤ 5) :
    tryCreateNewPoint s cornerSubPix pos =
      { s with m_emitted := Signal.notifyTooClose :: s.m_emitted } ∧
    (tryCreateNewPoint s cornerSubPix pos).m_trackedObjects = s.m_trackedObjects ∧
    (tryCreateNewPoint s cornerSubPix pos).m_currentActivePoint = s.m_currentActivePoint ∧
    (tryCreateNewPoint s cornerSubPix pos).m_trackOnlyActive = s.m_trackOnlyActive := by
  have hg := (getCurrentPointsFrom_getElem? s s.m_currentFrame s.m_trackedObjects 0 i o ho).1
  rw [getCurrentPointsEntry_some s s.m_currentFrame (0 + i) o r hr] at hg
  have hmem : r.m_position ∈ (getCurrentPoints s s.m_currentFrame).1 :=
    List.mem_iff_getElem?.2 ⟨i, hg⟩
  have hany : (getCurrentPoints s s.m_currentFrame).1.any
      (fun otherPos => decide (cvNorm (toCv pos) otherPos ≤ 5)) = true :=
    List.any_eq_true.2 ⟨r.m_position, hmem, by simpa using hclose⟩
  have e : tryCreateNewPoint s cornerSubPix pos =
      { s with m_emitted := Signal.notifyTooClose :: s.m_emitted } := by
    simp only [tryCreateNewPoint, hany, if_true]
  rw [e]
  exact ⟨rfl, rfl, rfl, rfl⟩

/-- Witness of C12: `A` is at `(10, 10)`, the click at `(11, 11)`. -/
theorem tryCreateNewPoint_too_close_witness :
    cvNorm (toCv ⟨11, 11⟩) (validRecord 10 10).m_position ≤ 5 ∧
    tryCreateNewPoint trackerAB cornerSubPixStill ⟨11, 11⟩ =
      { trackerAB with m_emitted := Signal.notifyTooClose :: trackerAB.m_emitted } :=
  ⟨by decide!,
    (tryCreateNewPoint_too_close trackerAB cornerSubPixStill ⟨11, 11⟩ 0
      ⟨0, [(0, validRecord 10 10)]⟩ (validRecord 10 10) (by decide) (by decide)
      (by decide!)).1⟩

/-- Counterexample to C12: the only point is stored at `pointFifths`, the
`float` values nearest to `(0.2, 0.6)`, and has a record at the current frame.
The click `(5, 2)` lies within 5 pixels of it (exact squared distance at most
25), but the `float` difference is `(4.80000019, 1.39999998)` and the norm
computed is above 5: `tryCreateNewPoint` accepts the click, creates a second
trajectory and makes it the active one. -/
theorem tryCreateNewPoint_accepts_within_five :
    run initialTracker [Event.tryCreateNewPoint cornerSubPixToFifths ⟨0, 1⟩] =
      some trackerRefinedPoint ∧
    recordPosition trackerRefinedPoint 0 trackerRefinedPoint.m_currentFrame =
      some pointFifths ∧
    normSq (toCv ⟨5, 2⟩) pointFifths ≤ 25 ∧
    ¬ (cvNorm (toCv ⟨5, 2⟩) pointFifths ≤ 5) ∧
    (tryCreateNewPoint trackerRefinedPoint cornerSubPixStill ⟨5, 2⟩).m_trackedObjects.length =
      2 ∧
    (tryCreateNewPoint trackerRefinedPoint cornerSubPixStill ⟨5, 2⟩).m_currentActivePoint =
      1 ∧
    (tryCreateNewPoint trackerRefinedPoint cornerSubPixStill ⟨5, 2⟩).m_emitted =
      [Signal.update, Signal.update] := by
  decide!

theorem deleteCurrentActivePoint_char (s : LucasKanadeTracker) (oa : TrackedObject)
    (h0 : 0 ≤ s.m_currentActivePoint)
    (hoa : s.m_trackedObjects[s.m_currentActivePoint.toNat]? = some oa)
    (r : InterestPoint) (hr : oa.get s.m_currentFrame = some r) :
    deleteCurrentActivePoint s =
      some { s with
        m_trackedObjects :=
          s.m_trackedObjects.set s.m_currentActivePoint.toNat
            (oa.modify s.m_currentFrame
              (fun traj => traj.setStatus InterestPointStatus.Invalid))
        m_emitted := Signal.update :: s.m_emitted } := by
  have hv : oa.hasValuesAtFrame s.m_currentFrame = true :=
    TrackedObject.hasValuesAtFrame_eq_true hr
  simp [deleteCurrentActivePoint, h0, hoa, hv]

/-- C14: when the active id is a valid index, `deleteCurrentActivePoint` keeps
the number of trajectories.  If the active trajectory has a record at the
current frame, that record becomes `Invalid` with the same position, and the
record of every other pair of a trajectory id and a frame is as before; if it
has none, nothing changes. -/
theorem deleteCurrentActivePoint_marks_invalid (s : LucasKanadeTracker)
    (oa : TrackedObject) (h0 : 0 ≤ s.m_currentActivePoint)
    (hoa : s.m_trackedObjects[s.m_currentActivePoint.toNat]? = some oa) :
    (oa.get s.m_currentFrame = none → deleteCurrentActivePoint s = some s) ∧
    (∀ r : InterestPoint, oa.get s.m_currentFrame = some r →
      ∃ s' oa', deleteCurrentActivePoint s = some s' ∧
        s'.m_trackedObjects.length = s.m_trackedObjects.length ∧
        s'.m_trackedObjects[s.m_currentActivePoint.toNat]? = some oa' ∧
        oa'.get s.m_currentFrame =
          some { r with m_status := InterestPointStatus.Invalid } ∧
        (∀ g : Nat, g ≠ s.m_currentFrame → oa'.get g = oa.get g) ∧
        ∀ i : Nat, i ≠ s.m_currentActivePoint.toNat →
          s'.m_trackedObjects[i]? = s.m_trackedObjects[i]?) := by
  have ha : s.m_currentActivePoint.toNat < s.m_trackedObjects.length :=
    (List.getElem?_eq_some.1 hoa).1
  constructor
  · intro hn
    have hv : oa.hasValuesAtFrame s.m_currentFrame = false :=
      TrackedObject.hasValuesAtFrame_eq_false hn
    simp [deleteCurrentActivePoint, h0, hoa, hv]
  · intro r hr
    refine ⟨_, _, deleteCurrentActivePoint_char s oa h0 hoa r hr, by simp,
      List.getElem?_set_self ha, ?_, ?_, ?_⟩
    · rw [TrackedObject.get_modify, if_pos rfl, hr]
      rfl
    · intro g hg
      rw [TrackedObject.get_modify, if_neg hg]
    · intro i hi
      exact List.getElem?_set_ne (fun h => hi h.symm)

/-- Witness of C14: `B`, the active point of `trackerAB`, is deleted at frame 0. -/
theorem deleteCurrentActivePoint_marks_invalid_witness :
    0 ≤ trackerAB.m_currentActivePoint ∧
    ∃ s' oa', deleteCurrentActivePoint trackerAB = some s' ∧
      s'.m_trackedObjects.length = trackerAB.m_trackedObjects.length ∧
      s'.m_trackedObjects[trackerAB.m_currentActivePoint.toNat]? = some oa' ∧
      oa'.get trackerAB.m_currentFrame =
        some { validRecord 50 50 with m_status := InterestPointStatus.Invalid } :=
  ⟨by decide,
    by
      obtain ⟨s', oa', h1, h2, h3, h4, -⟩ :=
        (deleteCurrentActivePoint_marks_invalid trackerAB ⟨1, [(0, validRecord 50 50)]⟩
          (by decide) (by decide)).2 (validRecord 50 50) (by decide)
      exact ⟨s', oa', h1, h2, h3, h4⟩⟩

theorem activateAllNonTrackedPointsEntry_get (frame g : Nat) (o : TrackedObject) :
    (activateAllNonTrackedPointsEntry frame o).get g =
      if g = frame then
        (o.get frame).map (fun traj =>
          if traj.m_status = InterestPointStatus.Not_Tracked then
            traj.setStatus InterestPointStatus.Valid
          else traj)
      else o.get g := by
  unfold activateAllNonTrackedPointsEntry
  cases hv : o.hasValuesAtFrame frame with
  | true =>
    simp only [if_true]
    exact TrackedObject.get_modify o frame g _
  | false =>
    have hn : o.get frame = none := by
      simpa [TrackedObject.hasValuesAtFrame] using hv
    by_cases hg : g = frame
    · subst hg
      simp [hn]
    · simp [hg]

/-- C15: switching "track only active" off (any state other than
`Qt::Checked`) clears the mode flag and keeps the number of trajectories.  For
every trajectory the records at all other frames are as before; a record at
the current frame keeps its position and classification bits and has status
`Valid` if it was `Valid` or `Not_Tracked` and its old status otherwise; a
trajectory without a record at the current frame still has none.  Projecting
the current frame afterwards reports no `Not_Tracked` status. -/
theorem checkboxChanged_activeUser_off (s : LucasKanadeTracker) (state : Int)
    (hstate : state ≠ Qt_Checked) :
    (checkboxChanged_activeUser s state).m_trackOnlyActive = false ∧
    (checkboxChanged_activeUser s state).m_trackedObjects.length =
      s.m_trackedObjects.length ∧
    (∀ (i : Nat) (o : TrackedObject), s.m_trackedObjects[i]? = some o →
      ∃ o', (checkboxChanged_activeUser s state).m_trackedObjects[i]? = some o' ∧
        (∀ g : Nat, g ≠ s.m_currentFrame → o'.get g = o.get g) ∧
        (o.get s.m_currentFrame = none → o'.get s.m_currentFrame = none) ∧
        ∀ r : InterestPoint, o.get s.m_currentFrame = some r →
          o'.get s.m_currentFrame =
            some { r with
              m_status :=
                if r.m_status = InterestPointStatus.Valid ∨
                    r.m_status = InterestPointStatus.Not_Tracked then
                  InterestPointStatus.Valid
                else r.m_status }) ∧
    ∀ f : InterestPointStatus,
      f ∈ (getCurrentPoints (checkboxChanged_activeUser s state) s.m_currentFrame).2.1 →
      f ≠ InterestPointStatus.Not_Tracked := by
  have e : checkboxChanged_activeUser s state =
      { s with
        m_trackOnlyActive := false
        m_trackedObjects :=
          s.m_trackedObjects.map (activateAllNonTrackedPointsEntry s.m_currentFrame) } := by
    simp [checkboxChanged_activeUser, hstate, activateAllNonTrackedPoints]
  have hrec : ∀ (i : Nat) (o : TrackedObject), s.m_trackedObjects[i]? = some o →
      (checkboxChanged_activeUser s state).m_trackedObjects[i]? =
        some (activateAllNonTrackedPointsEntry s.m_currentFrame o) := by
    intro i o ho
    rw [e]
    simp [ho]
  refine ⟨by rw [e], by rw [e]; simp, ?_, ?_⟩
  · intro i o ho
    refine ⟨_, hrec i o ho, ?_, ?_, ?_⟩
    · intro g hg
      rw [activateAllNonTrackedPointsEntry_get, if_neg hg]
    · intro hn
      rw [activateAllNonTrackedPointsEntry_get, if_pos rfl, hn]
      rfl
    · intro r hr
      rw [activateAllNonTrackedPointsEntry_get, if_pos rfl, hr]
      cases hs : r.m_status <;> simp [hs, InterestPoint.setStatus]
      all_goals (cases r; simp_all)
  · intro f hf
    obtain ⟨i, hi⟩ := List.mem_iff_getElem?.1 hf
    have hlen := (getCurrentPointsFrom_length (checkboxChanged_activeUser s state)
      s.m_currentFrame (checkboxChanged_activeUser s state).m_trackedObjects 0).2.1
    have hi' : i < (checkboxChanged_activeUser s state).m_trackedObjects.length := by
      have := (List.getElem?_eq_some.1 hi).1
      have hlen' : (getCurrentPoints (checkboxChanged_activeUser s state)
        s.m_currentFrame).2.1.length =
          (checkboxChanged_activeUser s state).m_trackedObjects.length := hlen
      omega
    have hi'' : i < s.m_trackedObjects.length := by
      rw [e] at hi'
      simpa using hi'
    have ho' := hrec i s.m_trackedObjects[i] (List.getElem?_eq_getElem hi'')
    have hg := (getCurrentPointsFrom_getElem? (checkboxChanged_activeUser s state)
      s.m_currentFrame (checkboxChanged_activeUser s state).m_trackedObjects 0 i _ ho').2.1
    have hi2 : (getCurrentPoints (checkboxChanged_activeUser s state)
        s.m_currentFrame).2.1[i]? = some f := hi
    rw [getCurrentPoints, hg] at hi2
    have hmode : (checkboxChanged_activeUser s state).m_trackOnlyActive = false := by rw [e]
    cases hget : (activateAllNonTrackedPointsEntry s.m_currentFrame
        s.m_trackedObjects[i]).get s.m_currentFrame with
    | none =>
      rw [getCurrentPointsEntry_none _ _ _ _ hget] at hi2
      simp at hi2
      rw [← hi2]
      decide
    | some r' =>
      rw [getCurrentPointsEntry_some _ _ _ _ r' hget] at hi2
      simp [hmode] at hi2
      rw [← hi2]
      rw [activateAllNonTrackedPointsEntry_get, if_pos rfl] at hget
      cases hold : (s.m_trackedObjects[i]).get s.m_currentFrame with
      | none => simp [hold] at hget
      | some r =>
        simp [hold] at hget
        rw [← hget]
        by_cases hnt : r.m_status = InterestPointStatus.Not_Tracked
        · simp [hnt, InterestPoint.setStatus]
        · simp [hnt]

/-- Witness of C15: the checkbox is unchecked (state 0) on `trackerOnlyA`. -/
theorem checkboxChanged_activeUser_off_witness :
    (0 : Int) ≠ Qt_Checked ∧
    (checkboxChanged_activeUser trackerOnlyA 0).m_trackOnlyActive = false ∧
    (checkboxChanged_activeUser trackerOnlyA 0).m_trackedObjects.length =
      trackerOnlyA.m_trackedObjects.length :=
  ⟨by decide,
    (checkboxChanged_activeUser_off trackerOnlyA 0 (by decide)).1,
    (checkboxChanged_activeUser_off trackerOnlyA 0 (by decide)).2.1⟩

/-- C16, as the source has it: on an empty store `activateExistingPoint` emits
the "no points to select" signal, leaves the store and the mode flags as they
were and sets the active id to -1. -/
theorem activateExistingPoint_empty (s : LucasKanadeTracker) (pos : QPoint)
    (hempty : s.m_trackedObjects = []) :
    activateExistingPoint s pos =
      { s with
        m_currentActivePoint := -1
        m_emitted := Signal.notifyNoPoints :: s.m_emitted } ∧
    (activateExistingPoint s pos).m_trackedObjects = s.m_trackedObjects ∧
    (activateExistingPoint s pos).m_trackOnlyActive = s.m_trackOnlyActive ∧
    (activateExistingPoint s pos).m_pauseOnInvalidPoint = s.m_pauseOnInvalidPoint ∧
    (activateExistingPoint s pos).m_currentActivePoint = -1 := by
  have e : activateExistingPoint s pos =
      { s with
        m_currentActivePoint := -1
        m_emitted := Signal.notifyNoPoints :: s.m_emitted } := by
    simp [activateExistingPoint, hempty]
  rw [e]
  exact ⟨rfl, rfl, rfl, rfl, rfl⟩

/-- Witness of C16 on the initial tracker. -/
theorem activateExistingPoint_empty_witness :
    initialTracker.m_trackedObjects = [] ∧
    (activateExistingPoint initialTracker ⟨5, 5⟩).m_currentActivePoint = -1 :=
  ⟨rfl, (activateExistingPoint_empty initialTracker ⟨5, 5⟩ rfl).2.2.2.2⟩

/-- Counterexample to C16: after a point was created and a new video opened,
the store is empty and the active id is 0; `activateExistingPoint` changes the
active id to -1. -/
theorem activateExistingPoint_resets_active :
    run initialTracker
      [Event.tryCreateNewPoint cornerSubPixStill ⟨5, 5⟩, Event.inputChanged] =
        some trackerAfterInputChanged ∧
    trackerAfterInputChanged.m_trackedObjects = [] ∧
    trackerAfterInputChanged.m_currentActivePoint = 0 ∧
    (activateExistingPoint trackerAfterInputChanged ⟨5, 5⟩).m_currentActivePoint = -1 ∧
    (activateExistingPoint trackerAfterInputChanged ⟨5, 5⟩).m_currentActivePoint ≠
      trackerAfterInputChanged.m_currentActivePoint := by
  decide!

/-! ## Export, history and the active id: C17 to C19 -/

theorem maximumFrameNumberOf_lookup :
    ∀ (l : List (Nat × InterestPoint)) (g : Nat) (r : InterestPoint),
      l.lookup g = some r → g ≤ maximumFrameNumberOf l
  | [], _, _, h => by simp at h
  | (k, p) :: rest, g, r, h => by
    by_cases hg : g = k
    · subst hg
      simp [maximumFrameNumberOf]
    · rw [lookup_cons_of_ne hg] at h
      have := maximumFrameNumberOf_lookup rest g r h
      simp only [maximumFrameNumberOf]
      omega

theorem clicked_print_maxTs_ge :
    ∀ (os : List TrackedObject) (m : Nat),
      m ≤ clicked_print_maxTs os m ∧
      ∀ o : TrackedObject, o ∈ os → o.maximumFrameNumber ≤ clicked_print_maxTs os m
  | [], m => by simp [clicked_print_maxTs]
  | o :: os, m => by
    simp only [clicked_print_maxTs]
    by_cases hc : o.maximumFrameNumber > m
    · obtain ⟨h1, h2⟩ := clicked_print_maxTs_ge os o.maximumFrameNumber
      rw [if_pos hc]
      refine ⟨by omega, ?_⟩
      intro o' ho'
      rcases List.mem_cons.1 ho' with rfl | hmem
      · exact h1
      · exact h2 o' hmem
    · obtain ⟨h1, h2⟩ := clicked_print_maxTs_ge os m
      rw [if_neg hc]
      refine ⟨h1, ?_⟩
      intro o' ho'
      rcases List.mem_cons.1 ho' with rfl | hmem
      · omega
      · exact h2 o' hmem

theorem clicked_print_maxTs_le (b : Nat) :
    ∀ (os : List TrackedObject) (m : Nat), m ≤ b →
      (∀ o : TrackedObject, o ∈ os → o.maximumFrameNumber ≤ b) →
      clicked_print_maxTs os m ≤ b
  | [], m, hm, _ => by simpa [clicked_print_maxTs] using hm
  | o :: os, m, hm, h => by
    simp only [clicked_print_maxTs]
    apply clicked_print_maxTs_le b os
    · have := h o (by simp)
      split <;> omega
    · intro o' ho'
      exact h o' (by simp [ho'])

theorem clicked_print_frame_mem (frame : Nat) :
    ∀ (os : List TrackedObject) (j : Nat) (row : ExportRow),
      row ∈ clicked_print_frame frame j os ↔
        ∃ (i : Nat) (o : TrackedObject) (traj : InterestPoint),
          os[i]? = some o ∧ o.get frame = some traj ∧
          traj.m_status = InterestPointStatus.Valid ∧
          row = ⟨frame, j + i, traj.m_position.x, traj.m_position.y, traj.m_userStatus⟩
  | [], _, _ => by simp [clicked_print_frame]
  | o :: os, j, row => by
    have ih := clicked_print_frame_mem frame os (j + 1) row
    have shift : (∃ (i : Nat) (o' : TrackedObject) (traj : InterestPoint),
          os[i]? = some o' ∧ o'.get frame = some traj ∧
          traj.m_status = InterestPointStatus.Valid ∧
          row = ⟨frame, j + 1 + i, traj.m_position.x, traj.m_position.y,
            traj.m_userStatus⟩) ↔
        ∃ (i : Nat) (o' : TrackedObject) (traj : InterestPoint),
          (o :: os)[i + 1]? = some o' ∧ o'.get frame = some traj ∧
          traj.m_status = InterestPointStatus.Valid ∧
          row = ⟨frame, j + (i + 1), traj.m_position.x, traj.m_position.y,
            traj.m_userStatus⟩ := by
      constructor
      · rintro ⟨i, o', traj, h1, h2, h3, h4⟩
        refine ⟨i, o', traj, by simpa using h1, h2, h3, ?_⟩
        rw [h4]
        congr 1
        omega
      · rintro ⟨i, o', traj, h1, h2, h3, h4⟩
        refine ⟨i, o', traj, by simpa using h1, h2, h3, ?_⟩
        rw [h4]
        congr 1
        omega
    have split0 : (∃ (i : Nat) (o' : TrackedObject) (traj : InterestPoint),
          (o :: os)[i]? = some o' ∧ o'.get frame = some traj ∧
          traj.m_status = InterestPointStatus.Valid ∧
          row = ⟨frame, j + i, traj.m_position.x, traj.m_position.y,
            traj.m_userStatus⟩) ↔
        (∃ traj : InterestPoint, o.get frame = some traj ∧
          traj.m_status = InterestPointStatus.Valid ∧
          row = ⟨frame, j, traj.m_position.x, traj.m_position.y, traj.m_userStatus⟩) ∨
        row ∈ clicked_print_frame frame (j + 1) os := by
      rw [ih, shift]
      constructor
      · rintro ⟨i, o', traj, h1, h2, h3, h4⟩
        cases i with
        | zero =>
          simp at h1
          subst h1
          exact Or.inl ⟨traj, h2, h3, by simpa using h4⟩
        | succ i => exact Or.inr ⟨i, o', traj, h1, h2, h3, h4⟩
      · rintro (⟨traj, h2, h3, h4⟩ | ⟨i, o', traj, h1, h2, h3, h4⟩)
        · exact ⟨0, o, traj, by simp, h2, h3, by simpa using h4⟩
        · exact ⟨i + 1, o', traj, h1, h2, h3, h4⟩
    rw [split0]
    cases hget : o.get frame with
    | none =>
      simp [clicked_print_frame, TrackedObject.hasValuesAtFrame_eq_false hget]
    | some traj =>
      by_cases hv : traj.m_status = InterestPointStatus.Valid
      · simp [clicked_print_frame, TrackedObject.hasValuesAtFrame_eq_true hget, hget, hv]
      · simp only [clicked_print_frame, TrackedObject.hasValuesAtFrame_eq_true hget, hget,
          hv, if_true, if_false]
        constructor
        · intro h
          exact Or.inr h
        · rintro (⟨traj', h2, h3, -⟩ | h)
          · cases h2
            exact absurd h3 hv
          · exact h

theorem clicked_print_frame_sorted (frame : Nat) :
    ∀ (os : List TrackedObject) (j : Nat),
      (clicked_print_frame frame j os).Pairwise (fun a b => a.id < b.id)
  | [], _ => by simp [clicked_print_frame]
  | o :: os, j => by
    have ih := clicked_print_frame_sorted frame os (j + 1)
    have hge : ∀ row : ExportRow, row ∈ clicked_print_frame frame (j + 1) os → j < row.id := by
      intro row hrow
      obtain ⟨i, _, _, _, _, _, h4⟩ := (clicked_print_frame_mem frame os (j + 1) row).1 hrow
      rw [h4]
      show j < j + 1 + i
      omega
    cases hget : o.get frame with
    | none =>
      simpa [clicked_print_frame, TrackedObject.hasValuesAtFrame_eq_false hget] using ih
    | some traj =>
      by_cases hv : traj.m_status = InterestPointStatus.Valid
      · simp only [clicked_print_frame, TrackedObject.hasValuesAtFrame_eq_true hget, hget,
          hv, if_true, List.pairwise_cons]
        exact ⟨fun row hrow => hge row hrow, ih⟩
      · simpa [clicked_print_frame, TrackedObject.hasValuesAtFrame_eq_true hget, hget, hv]
          using ih

theorem clicked_print_frame_frame (frame : Nat) (os : List TrackedObject) (j : Nat)
    (row : ExportRow) (h : row ∈ clicked_print_frame frame j os) : row.frame = frame := by
  obtain ⟨i, _, _, _, _, _, h4⟩ := (clicked_print_frame_mem frame os j row).1 h
  rw [h4]

/-- C17, as the source has it: for a store whose frame numbers are below
`2^64 - 1`, and for every mode flag and active id, the rows of the export are
exactly the pairs of a frame and a trajectory id at which the trajectory has a
record whose stored status is `Valid`, each row carrying that frame, that id,
the x and y of the record and its classification bits; the rows are in
ascending order of frame and, within a frame, of id, so each pair occurs
once. -/
theorem clicked_print_rows (s : LucasKanadeTracker)
    (hframes : ∀ o : TrackedObject, o ∈ s.m_trackedObjects →
      o.maximumFrameNumber + 1 < 2 ^ 64) :
    (∀ row : ExportRow, row ∈ clicked_print s ↔
      ∃ (i : Nat) (o : TrackedObject) (traj : InterestPoint),
        s.m_trackedObjects[i]? = some o ∧ o.get row.frame = some traj ∧
        traj.m_status = InterestPointStatus.Valid ∧
        row = ⟨row.frame, i, traj.m_position.x, traj.m_position.y, traj.m_userStatus⟩) ∧
    (clicked_print s).Pairwise
      (fun a b => a.frame < b.frame ∨ (a.frame = b.frame ∧ a.id < b.id)) := by
  have hle : clicked_print_maxTs s.m_trackedObjects 0 ≤ 2 ^ 64 - 2 := by
    apply clicked_print_maxTs_le
    · norm_num
    · intro o ho
      have := hframes o ho
      omega
  have hmod : (clicked_print_maxTs s.m_trackedObjects 0 + 1) % 2 ^ 64 =
      clicked_print_maxTs s.m_trackedObjects 0 + 1 := by
    apply Nat.mod_eq_of_lt
    have : (2 : Nat) ^ 64 - 2 + 1 < 2 ^ 64 := by norm_num
    omega
  constructor
  · intro row
    simp only [clicked_print, hmod, List.mem_flatMap, List.mem_range]
    constructor
    · rintro ⟨frame, -, hrow⟩
      obtain ⟨i, o, traj, h1, h2, h3, h4⟩ :=
        (clicked_print_frame_mem frame s.m_trackedObjects 0 row).1 hrow
      have hf : row.frame = frame := by rw [h4]
      refine ⟨i, o, traj, h1, by rw [hf]; exact h2, h3, ?_⟩
      rw [hf, h4]
      simp
    · rintro ⟨i, o, traj, h1, h2, h3, h4⟩
      have hmem : o ∈ s.m_trackedObjects := List.mem_iff_getElem?.2 ⟨i, h1⟩
      have hb1 : row.frame ≤ o.maximumFrameNumber :=
        maximumFrameNumberOf_lookup o.m_objectsByFrame row.frame traj h2
      have hb2 := (clicked_print_maxTs_ge s.m_trackedObjects 0).2 o hmem
      refine ⟨row.frame, by omega, ?_⟩
      rw [clicked_print_frame_mem]
      exact ⟨i, o, traj, h1, h2, h3, by simpa using h4⟩
  · simp only [clicked_print, hmod]
    rw [List.pairwise_flatMap]
    constructor
    · intro frame _
      refine List.Pairwise.imp_of_mem ?_
        (clicked_print_frame_sorted frame s.m_trackedObjects 0)
      intro a b ha hb hab
      right
      exact ⟨by rw [clicked_print_frame_frame frame _ _ a ha,
        clicked_print_frame_frame frame _ _ b hb], hab⟩
    · refine List.Pairwise.imp ?_
        (List.pairwise_lt_range (clicked_print_maxTs s.m_trackedObjects 0 + 1))
      intro f1 f2 hlt x hx y hy
      left
      rw [clicked_print_frame_frame f1 _ _ x hx, clicked_print_frame_frame f2 _ _ y hy]
      exact hlt

/-- Witness of C17 on `trackerOnlyA`. -/
theorem clicked_print_rows_witness :
    (∀ o : TrackedObject, o ∈ trackerOnlyA.m_trackedObjects →
      o.maximumFrameNumber + 1 < 2 ^ 64) ∧
    (clicked_print trackerOnlyA).Pairwise
      (fun a b => a.frame < b.frame ∨ (a.frame = b.frame ∧ a.id < b.id)) :=
  ⟨by decide, (clicked_print_rows trackerOnlyA (by decide)).2⟩

/-- Counterexample to C17: with "track only active" on and `A` active, `B` is
projected `Not_Tracked` at frame 0, not `Valid`, and the export still has the
row of `B` at frame 0, because it reads the stored status. -/
theorem clicked_print_exports_not_tracked :
    (getCurrentPoints trackerOnlyA 0).2.1[1]? = some InterestPointStatus.Not_Tracked ∧
    clicked_print trackerOnlyA = [⟨0, 0, 10, 10, 0⟩, ⟨0, 1, 50, 50, 0⟩] := by
  decide

/-- C18 at a failing input: with history depth 3 at frame 5, for a point that
has been `Valid` since frame 0, `paintOverlay` collects two entries, the
positions of frames 4 and 3, and not the position `(12, 20)` of frame 2: the
loop runs while `t < m_currentHistory`, starting at `t = 1`. -/
theorem paintOverlayHistory_one_short :
    (sliderChanged_history trackerSixFrames 3).m_currentHistory = 3 ∧
    paintOverlayHistory trackerSixFrames 5 = [[⟨14, 20⟩], [⟨13, 20⟩]] ∧
    (paintOverlayHistory trackerSixFrames 5).length = 2 ∧
    (getCurrentPoints trackerSixFrames 2).1 = [⟨12, 20⟩] := by
  decide

/-- C19 at a failing input: creating a point on the initial tracker and then
opening a new video (`inputChanged`) leaves the active id 0 with an empty
store, neither -1 nor a valid index; `deleteCurrentActivePoint` then indexes
`m_trackedObjects[0]` out of range and `track` fails the assertion of
`splitActivePoints`. -/
theorem inputChanged_keeps_active_id :
    run initialTracker
      [Event.tryCreateNewPoint cornerSubPixStill ⟨5, 5⟩, Event.inputChanged] =
        some trackerAfterInputChanged ∧
    trackerAfterInputChanged.m_currentActivePoint = 0 ∧
    trackerAfterInputChanged.m_trackedObjects.length = 0 ∧
    step trackerAfterInputChanged Event.deleteCurrentActivePoint = none ∧
    step trackerAfterInputChanged (Event.track 1 100 100 flowStill) = none := by
  decide!

end LucasKanade
